import Mathlib

/-!
Verification of the NBT (Named Binary Tag) core of `pymclevel/nbt.py`:
the twelve tag kinds, the structural relations `eq` / `ne` / `issubset`,
the binary decoder (`_load_buffer`, the per-class `load_from` methods),
the string codec (`load_string` / `write_string`), the textual emitter
(`json`) and the textual state-machine reader (`json_to_tag`), the
`littleEndianNBT` scope, and `TAG_List` mutation.

Modelling conventions:
* Python exceptions are modelled with `Except PyErr`; a bare `except:`
  in the source maps to catching every `PyErr`.
* Machine integers are `Int` with explicit range checks where `struct`
  packs and unpacks them; byte buffers are `List Nat` with entries in
  `[0, 255]`.
* Python floats are modelled as exact values (`FloatVal` over `ℚ` plus
  infinities and NaN); no verified claim below depends on rounding or
  on Python float-to-string formatting.
* Recursive procedures take an explicit fuel argument (first position),
  so every definition is executable by kernel reduction; wrappers pass
  fuel that is always sufficient (`sizeOf t + 1`, or the buffer length).
-/

/-- Python exception kinds raised by the modelled code paths. -/
inductive PyErr where
  | typeError
  | keyError
  | valueError
  | indexError
  | structError
  | nbtFormatError
  | jsonFormatError
  | unicodeDecodeError
  | attributeError
  | assertionError
  | outOfFuel
deriving DecidableEq, Repr

/-- Python float values: exact finite rationals, signed infinity, NaN.
The finite case is exact because no verified claim depends on IEEE
rounding. -/
inductive FloatVal where
  | finite (q : ℚ)
  | inf (neg : Bool)
  | nan
deriving DecidableEq, Repr

/-- Tag-kind identifiers, named as in the source. -/
def TAG_BYTE : Nat := 1

def TAG_SHORT : Nat := 2

def TAG_INT : Nat := 3

def TAG_LONG : Nat := 4

def TAG_FLOAT : Nat := 5

def TAG_DOUBLE : Nat := 6

def TAG_BYTE_ARRAY : Nat := 7

def TAG_STRING : Nat := 8

def TAG_LIST : Nat := 9

def TAG_COMPOUND : Nat := 10

def TAG_INT_ARRAY : Nat := 11

def TAG_LONG_ARRAY : Nat := 12

/-- The tag tree: one constructor per `TAG_*` class of the source.
Array payloads are element lists (`uint8` / `>u4` / `>u8` dtypes hold
non-negative machine integers, hence `List Nat`). A `TAG_List` carries
its `list_type` attribute. -/
inductive Tag where
  | TAG_Byte (name : String) (value : Int)
  | TAG_Short (name : String) (value : Int)
  | TAG_Int (name : String) (value : Int)
  | TAG_Long (name : String) (value : Int)
  | TAG_Float (name : String) (value : FloatVal)
  | TAG_Double (name : String) (value : FloatVal)
  | TAG_Byte_Array (name : String) (value : List Nat)
  | TAG_String (name : String) (value : String)
  | TAG_List (name : String) (list_type : Nat) (value : List Tag)
  | TAG_Compound (name : String) (value : List Tag)
  | TAG_Int_Array (name : String) (value : List Nat)
  | TAG_Long_Array (name : String) (value : List Nat)

/-- Decidable equality for `Except` results. -/
instance {ε α : Type} [DecidableEq ε] [DecidableEq α] : DecidableEq (Except ε α)
  | .ok a, .ok b =>
    if h : a = b then .isTrue (by rw [h]) else .isFalse (by simp [h])
  | .ok _, .error _ => .isFalse (by simp)
  | .error _, .ok _ => .isFalse (by simp)
  | .error e, .error f =>
    if h : e = f then .isTrue (by rw [h]) else .isFalse (by simp [h])

namespace Tag

/-- Structural size of a tag tree, used as fuel for the fuelled
recursions below: any recursion that descends only into subtags
terminates within this many steps. -/
def sizeT : Tag → Nat
  | .TAG_Compound _ cs => 1 + sizeLT cs
  | .TAG_List _ _ cs => 1 + sizeLT cs
  | _ => 1
where
  sizeLT : List Tag → Nat
    | [] => 0
    | t :: ts => sizeT t + sizeLT ts

/-- The `tagID` class attribute. -/
def tagID : Tag → Nat
  | .TAG_Byte _ _ => TAG_BYTE
  | .TAG_Short _ _ => TAG_SHORT
  | .TAG_Int _ _ => TAG_INT
  | .TAG_Long _ _ => TAG_LONG
  | .TAG_Float _ _ => TAG_FLOAT
  | .TAG_Double _ _ => TAG_DOUBLE
  | .TAG_Byte_Array _ _ => TAG_BYTE_ARRAY
  | .TAG_String _ _ => TAG_STRING
  | .TAG_List _ _ _ => TAG_LIST
  | .TAG_Compound _ _ => TAG_COMPOUND
  | .TAG_Int_Array _ _ => TAG_INT_ARRAY
  | .TAG_Long_Array _ _ => TAG_LONG_ARRAY

/-- The `name` attribute of any tag. -/
def nameOf : Tag → String
  | .TAG_Byte n _ => n
  | .TAG_Short n _ => n
  | .TAG_Int n _ => n
  | .TAG_Long n _ => n
  | .TAG_Float n _ => n
  | .TAG_Double n _ => n
  | .TAG_Byte_Array n _ => n
  | .TAG_String n _ => n
  | .TAG_List n _ _ => n
  | .TAG_Compound n _ => n
  | .TAG_Int_Array n _ => n
  | .TAG_Long_Array n _ => n

/-- Replace the `name` attribute (the `name` property setter). -/
def withName (k : String) : Tag → Tag
  | .TAG_Byte _ v => .TAG_Byte k v
  | .TAG_Short _ v => .TAG_Short k v
  | .TAG_Int _ v => .TAG_Int k v
  | .TAG_Long _ v => .TAG_Long k v
  | .TAG_Float _ v => .TAG_Float k v
  | .TAG_Double _ v => .TAG_Double k v
  | .TAG_Byte_Array _ v => .TAG_Byte_Array k v
  | .TAG_String _ v => .TAG_String k v
  | .TAG_List _ t v => .TAG_List k t v
  | .TAG_Compound _ v => .TAG_Compound k v
  | .TAG_Int_Array _ v => .TAG_Int_Array k v
  | .TAG_Long_Array _ v => .TAG_Long_Array k v

end Tag

/-- Scalar payloads as Python values, for cross-kind `==` comparison. -/
inductive PyVal where
  | intV (i : Int)
  | floatV (v : FloatVal)
  | strV (s : String)
deriving DecidableEq, Repr

/-- The `value` attribute of the seven scalar classes (`none` for the
container and array classes, whose `eq` never reaches `==`). -/
def Tag.scalarVal : Tag → Option PyVal
  | .TAG_Byte _ v => some (.intV v)
  | .TAG_Short _ v => some (.intV v)
  | .TAG_Int _ v => some (.intV v)
  | .TAG_Long _ v => some (.intV v)
  | .TAG_Float _ v => some (.floatV v)
  | .TAG_Double _ v => some (.floatV v)
  | .TAG_String _ s => some (.strV s)
  | _ => none

/-- Python `==` between a float value and an exact integer. -/
def FloatVal.eqInt : FloatVal → Int → Bool
  | .finite q, i => q = (i : ℚ)
  | _, _ => false

/-- Python `==` between two float values (`nan == nan` is false). -/
def FloatVal.eqF : FloatVal → FloatVal → Bool
  | .finite q, .finite r => q = r
  | .inf a, .inf b => a = b
  | _, _ => false

/-- Python `==` on scalar tag payloads: numbers compare numerically
across `int` / `float`; a string equals only an equal string. -/
def pyEq : PyVal → PyVal → Bool
  | .intV a, .intV b => a = b
  | .intV a, .floatV f => f.eqInt a
  | .floatV f, .intV a => f.eqInt a
  | .floatV f, .floatV g => f.eqF g
  | .strV s, .strV t => s = t
  | _, _ => false

/-- Membership test of `TAG_Value.eq`: `type(other)` is one of
`TAG_Compound`, `TAG_List`, `TAG_Byte_Array`, `TAG_Long_Array`,
`TAG_Int_Array`. -/
def Tag.isContainerKind (t : Tag) : Bool :=
  t.tagID = TAG_COMPOUND ∨ t.tagID = TAG_LIST ∨ t.tagID = TAG_BYTE_ARRAY ∨
    t.tagID = TAG_LONG_ARRAY ∨ t.tagID = TAG_INT_ARRAY

/-- Membership test of `TAG_Byte_Array.eq`: one of the three array
classes. -/
def Tag.isArrayKind (t : Tag) : Bool :=
  t.tagID = TAG_BYTE_ARRAY ∨ t.tagID = TAG_LONG_ARRAY ∨ t.tagID = TAG_INT_ARRAY

/-- First child with the given name: `TAG_Compound.__getitem__` without
the `KeyError` (the callers below handle the missing case). -/
def lookupT (cs : List Tag) (k : String) : Option Tag :=
  cs.find? (fun c => c.nameOf = k)

/-- `TAG_Compound.get_all`: every child whose name equals the key. -/
def get_all (cs : List Tag) (k : String) : List Tag :=
  cs.filter (fun c => c.nameOf = k)

/-- One iteration space of `for aKey in self.keys()` over a compound
value: the child names in order (duplicates included). -/
def keysOf (cs : List Tag) : List String :=
  cs.map Tag.nameOf

/-- Loop of `TAG_Compound.eq` / `TAG_Compound.ne`: true when some key
comparison reports `ne` or raises (both methods wrap the loop in a bare
`try`/`except`). `self[aKey]` and `other[aKey]` are fresh first-match
lookups, exactly as `__getitem__` performs them. -/
def anyNeKeys (ne : Tag → Tag → Except PyErr Bool) (cs ds : List Tag) : Bool :=
  (keysOf cs).any (fun k =>
    match lookupT cs k, lookupT ds k with
    | some c, some d =>
      match ne c d with
      | .ok b => b
      | .error _ => true
    | _, _ => true)

/-- Loop of `TAG_List.eq` / `TAG_List.ne` over positionally paired
elements; unlike the compound loop it has no `try`, so an exception
from an element comparison propagates. -/
def zipNe (ne : Tag → Tag → Except PyErr Bool) : List Tag → List Tag → Except PyErr Bool
  | [], _ => .ok false
  | _, [] => .ok false
  | x :: xs, y :: ys =>
    match ne x y with
    | .error e => .error e
    | .ok true => .ok true
    | .ok false => zipNe ne xs ys

/-- Fuelled `ne`. Scalars (`TAG_Value.ne`): `True` against any of the
five container/array kinds, else `value != value`. Arrays
(`TAG_Byte_Array.ne`): `True` against a non-array, else the method
evaluates `len(self)` — and no array class defines `__len__`, so a
`TypeError` is raised. Compounds and lists compare sizes and then run
their loops. -/
def neF : Nat → Tag → Tag → Except PyErr Bool
  | 0 => fun _ _ => .error .outOfFuel
  | fuel + 1 => fun a other =>
    match a with
    | .TAG_Compound _ cs =>
      match other with
      | .TAG_Compound _ ds =>
        if cs.length ≠ ds.length then .ok true
        else .ok (anyNeKeys (neF fuel) cs ds)
      | _ => .ok true
    | .TAG_List _ _ xs =>
      match other with
      | .TAG_List _ _ ys =>
        if xs.length ≠ ys.length then .ok true
        else zipNe (neF fuel) xs ys
      | _ => .ok true
    | .TAG_Byte_Array _ _ =>
      if other.isArrayKind then .error .typeError else .ok true
    | .TAG_Int_Array _ _ =>
      if other.isArrayKind then .error .typeError else .ok true
    | .TAG_Long_Array _ _ =>
      if other.isArrayKind then .error .typeError else .ok true
    | a =>
      if other.isContainerKind then .ok true
      else
        match a.scalarVal, other.scalarVal with
        | some v, some w => .ok (!(pyEq v w))
        | _, _ => .ok true

/-- The `ne` method with always-sufficient fuel. -/
def neT (a other : Tag) : Except PyErr Bool :=
  neF (a.sizeT + 1) a other

/-- The `eq` method. Scalars (`TAG_Value.eq`): `False` against the five
container/array kinds, else `value == value` (note: the kind of the
other scalar is not checked). Arrays (`TAG_Byte_Array.eq`): `False`
against a non-array, else `len(self)` raises `TypeError` as in `ne`.
`TAG_Compound.eq` and `TAG_List.eq` delegate to the children's `ne`. -/
def eqT (a other : Tag) : Except PyErr Bool :=
  match a with
  | .TAG_Compound _ cs =>
    match other with
    | .TAG_Compound _ ds =>
      if cs.length ≠ ds.length then .ok false
      else .ok (!(anyNeKeys neT cs ds))
    | _ => .ok false
  | .TAG_List _ _ xs =>
    match other with
    | .TAG_List _ _ ys =>
      if xs.length ≠ ys.length then .ok false
      else
        match zipNe neT xs ys with
        | .error e => .error e
        | .ok r => .ok (!r)
    | _ => .ok false
  | .TAG_Byte_Array _ _ =>
    if other.isArrayKind then .error .typeError else .ok false
  | .TAG_Int_Array _ _ =>
    if other.isArrayKind then .error .typeError else .ok false
  | .TAG_Long_Array _ _ =>
    if other.isArrayKind then .error .typeError else .ok false
  | a =>
    if other.isContainerKind then .ok false
    else
      match a.scalarVal, other.scalarVal with
      | some v, some w => .ok (pyEq v w)
      | _, _ => .ok false

/-- One key check of `TAG_Compound.issubset`: look up `self[k]` and
`other[k]` (first match) and run the recursive check; the enclosing
bare `try`/`except` turns any exception (a missing key, or an exception
escaping a nested check) into `False`. -/
def subKey (sub : Tag → Tag → Except PyErr Bool) (cs ds : List Tag) (k : String) : Bool :=
  match lookupT cs k, lookupT ds k with
  | some c, some d =>
    match sub c d with
    | .ok b => b
    | .error _ => false
  | _, _ => false

/-- Loop of `TAG_Compound.issubset`: every key of the left compound
must pass `subKey`. -/
def allSubsetKeys (sub : Tag → Tag → Except PyErr Bool) (cs ds : List Tag) : Bool :=
  (keysOf cs).all (subKey sub cs ds)

/-- Inner generator of `TAG_List.issubset`:
`any(self[i].issubset(other[j]) for j in ...)`; lazily stops at the
first `True`, and an exception from a check propagates. -/
def anySubsetJ (sub : Tag → Tag → Except PyErr Bool) (x : Tag) : List Tag → Except PyErr Bool
  | [] => .ok false
  | y :: ys =>
    match sub x y with
    | .error e => .error e
    | .ok true => .ok true
    | .ok false => anySubsetJ sub x ys

/-- Outer loop of `TAG_List.issubset` over the left list's elements
(no `try` here: exceptions propagate to the caller). -/
def listSubsetLoop (sub : Tag → Tag → Except PyErr Bool) : List Tag → List Tag → Except PyErr Bool
  | [], _ => .ok true
  | x :: xs, ys =>
    match anySubsetJ sub x ys with
    | .error e => .error e
    | .ok false => .ok false
    | .ok true => listSubsetLoop sub xs ys

/-- Fuelled `issubset`. Scalars, strings and arrays use
`TAG_Value.issubset`, which is `self.eq(other)`; compounds require
every left key to be subset-matched on the right (exceptions caught as
`False`); lists use the order-insensitive existential match. -/
def issubsetF : Nat → Tag → Tag → Except PyErr Bool
  | 0 => fun _ _ => .error .outOfFuel
  | fuel + 1 => fun a other =>
    match a with
    | .TAG_Compound _ cs =>
      match other with
      | .TAG_Compound _ ds => .ok (allSubsetKeys (issubsetF fuel) cs ds)
      | _ => .ok false
    | .TAG_List _ _ xs =>
      match other with
      | .TAG_List _ _ ys => listSubsetLoop (issubsetF fuel) xs ys
      | _ => .ok false
    | a => eqT a other

/-- The `issubset` method with always-sufficient fuel. -/
def issubsetT (a other : Tag) : Except PyErr Bool :=
  issubsetF (a.sizeT + 1) a other

theorem Tag.sizeT_pos (a : Tag) : 1 ≤ a.sizeT := by
  cases a <;> simp [Tag.sizeT]

theorem Tag.sizeLT_le_of_mem {c : Tag} {cs : List Tag} (h : c ∈ cs) :
    c.sizeT ≤ Tag.sizeT.sizeLT cs := by
  induction cs with
  | nil => cases h
  | cons x xs ih =>
    cases h with
    | head =>
      simp only [Tag.sizeT.sizeLT]
      omega
    | tail _ hmem =>
      have := ih hmem
      simp only [Tag.sizeT.sizeLT]
      omega

theorem lookupT_mem {cs : List Tag} {k : String} {c : Tag} (h : lookupT cs k = some c) :
    c ∈ cs :=
  List.mem_of_find?_eq_some h

theorem allSubsetKeys_congr {s1 s2 : Tag → Tag → Except PyErr Bool} {cs ds : List Tag}
    (h : ∀ c ∈ cs, ∀ d, s1 c d = s2 c d) :
    allSubsetKeys s1 cs ds = allSubsetKeys s2 cs ds := by
  unfold allSubsetKeys
  have congrAll : ∀ (l : List String)
      (p q : String → Bool), (∀ k ∈ l, p k = q k) → l.all p = l.all q := by
    intro l p q hpq
    induction l with
    | nil => rfl
    | cons x xs ih =>
      simp only [List.all_cons, hpq x (by simp), ih (fun k hk => hpq k (by simp [hk]))]
  refine congrAll _ _ _ (fun k _ => ?_)
  unfold subKey
  cases hc : lookupT cs k with
  | none => rfl
  | some c =>
    cases hd : lookupT ds k with
    | none => rfl
    | some d => simp only [h c (lookupT_mem hc) d]

theorem anySubsetJ_congr {s1 s2 : Tag → Tag → Except PyErr Bool} {x : Tag} {ys : List Tag}
    (h : ∀ y, s1 x y = s2 x y) :
    anySubsetJ s1 x ys = anySubsetJ s2 x ys := by
  induction ys with
  | nil => rfl
  | cons y ys ih => simp only [anySubsetJ, h y, ih]

theorem listSubsetLoop_congr {s1 s2 : Tag → Tag → Except PyErr Bool} {xs ys : List Tag}
    (h : ∀ x ∈ xs, ∀ y, s1 x y = s2 x y) :
    listSubsetLoop s1 xs ys = listSubsetLoop s2 xs ys := by
  induction xs with
  | nil => rfl
  | cons x xs ih =>
    simp only [listSubsetLoop,
      anySubsetJ_congr (fun y => h x (by simp) y),
      ih (fun x hx y => h x (by simp [hx]) y)]

/-- Fuel irrelevance for `issubsetF`: any fuel exceeding the structural
size of the left tag computes the same result, so the wrapper
`issubsetT` is the unique total meaning of the method. -/
theorem issubsetF_irrel (f1 : Nat) :
    ∀ (f2 : Nat) (a b : Tag), a.sizeT < f1 → a.sizeT < f2 →
      issubsetF f1 a b = issubsetF f2 a b := by
  induction f1 using Nat.strong_induction_on with
  | _ f1 IH =>
    intro f2 a b h1 h2
    have ha := a.sizeT_pos
    obtain ⟨g1, rfl⟩ : ∃ g1, f1 = g1 + 1 := ⟨f1 - 1, by omega⟩
    obtain ⟨g2, rfl⟩ : ∃ g2, f2 = g2 + 1 := ⟨f2 - 1, by omega⟩
    cases a with
    | TAG_Compound n cs =>
      simp only [issubsetF]
      cases b <;> try rfl
      case TAG_Compound m ds =>
        have hsz : Tag.sizeT.sizeLT cs < g1 ∧ Tag.sizeT.sizeLT cs < g2 := by
          simp [Tag.sizeT] at h1 h2; omega
        refine congrArg _ (allSubsetKeys_congr (fun c hc d => ?_))
        have hc1 : c.sizeT ≤ Tag.sizeT.sizeLT cs := Tag.sizeLT_le_of_mem hc
        exact IH g1 (by omega) g2 c d (by omega) (by omega)
    | TAG_List n t xs =>
      simp only [issubsetF]
      cases b <;> try rfl
      case TAG_List m u ys =>
        have hsz : Tag.sizeT.sizeLT xs < g1 ∧ Tag.sizeT.sizeLT xs < g2 := by
          simp [Tag.sizeT] at h1 h2; omega
        refine listSubsetLoop_congr (fun x hx y => ?_)
        have hx1 : x.sizeT ≤ Tag.sizeT.sizeLT xs := Tag.sizeLT_le_of_mem hx
        exact IH g1 (by omega) g2 x y (by omega) (by omega)
    | TAG_Byte n v => rfl
    | TAG_Short n v => rfl
    | TAG_Int n v => rfl
    | TAG_Long n v => rfl
    | TAG_Float n v => rfl
    | TAG_Double n v => rfl
    | TAG_String n v => rfl
    | TAG_Byte_Array n v => rfl
    | TAG_Int_Array n v => rfl
    | TAG_Long_Array n v => rfl

theorem issubsetF_eq_issubsetT {f : Nat} {a b : Tag} (h : a.sizeT < f) :
    issubsetF f a b = issubsetT a b :=
  issubsetF_irrel f (a.sizeT + 1) a b h (by omega)

/-- C1. Structural equality fails on the code in two ways: array
equality always raises `TypeError` (the method evaluates `len(self)`
and no array class defines `__len__`, so even two equal empty
`TAG_Byte_Array`s never compare equal), and scalar equality ignores the
kind (`TAG_Byte(1).eq(TAG_Short(1))` is `True`), contradicting the
claimed "same kind" requirement. Shown here at concrete inputs,
together with one conforming case: equal nonempty byte arrays also
raise instead of returning `True`. -/
theorem c1_eq_not_structural :
    eqT (.TAG_Byte_Array "" []) (.TAG_Byte_Array "" []) = .error .typeError ∧
    eqT (.TAG_Byte_Array "" [1, 2]) (.TAG_Byte_Array "" [1, 2]) = .error .typeError ∧
    eqT (.TAG_Byte "" 1) (.TAG_Short "" 1) = .ok true := by
  decide

theorem lookupT_of_mem_keys {cs : List Tag} {k : String} (h : k ∈ keysOf cs) :
    ∃ c, lookupT cs k = some c := by
  rcases List.mem_map.1 h with ⟨c0, hc0, hname⟩
  have hs : (lookupT cs k).isSome := by
    rw [lookupT, List.find?_isSome]
    exact ⟨c0, hc0, by simp [hname]⟩
  rcases Option.isSome_iff_exists.1 hs with ⟨c, hc⟩
  exact ⟨c, hc⟩

theorem subKey_some {sub : Tag → Tag → Except PyErr Bool} {cs ds : List Tag} {k : String}
    {c d : Tag} (hc : lookupT cs k = some c) (hd : lookupT ds k = some d) :
    subKey sub cs ds k =
      match sub c d with
      | .ok b => b
      | .error _ => false := by
  unfold subKey
  rw [hc, hd]

theorem subKey_none {sub : Tag → Tag → Except PyErr Bool} {cs ds : List Tag} {k : String}
    (hd : lookupT ds k = none) : subKey sub cs ds k = false := by
  unfold subKey
  rw [hd]
  cases lookupT cs k <;> rfl

theorem issubsetT_compound_compound (n m : String) (cs ds : List Tag) :
    issubsetT (.TAG_Compound n cs) (.TAG_Compound m ds) =
      .ok (allSubsetKeys (issubsetF (Tag.TAG_Compound n cs).sizeT) cs ds) := rfl

/-- C9. Subset relation on compounds: `a.issubset(b)` returns `True`
exactly when `b` is a compound and every key of `a` is present in `b`
with a successful recursive subset check (extra keys on `b` are
unconstrained), and the concrete scenario: for `a = {x:1b}` and
`b = {x:1b, y:"hi"}`, `a.issubset(b)` is true, `b.issubset(a)` is
false, and `a.eq(b)` is false. -/
theorem c9_issubset_characterization :
    (∀ (n : String) (cs : List Tag) (b : Tag),
      issubsetT (.TAG_Compound n cs) b = .ok true ↔
        ∃ m ds, b = .TAG_Compound m ds ∧
          ∀ k ∈ keysOf cs, ∃ c d, lookupT cs k = some c ∧ lookupT ds k = some d ∧
            issubsetT c d = .ok true) ∧
    (issubsetT (.TAG_Compound "" [.TAG_Byte "x" 1])
        (.TAG_Compound "" [.TAG_Byte "x" 1, .TAG_String "y" "hi"]) = .ok true ∧
      issubsetT (.TAG_Compound "" [.TAG_Byte "x" 1, .TAG_String "y" "hi"])
        (.TAG_Compound "" [.TAG_Byte "x" 1]) = .ok false ∧
      eqT (.TAG_Compound "" [.TAG_Byte "x" 1])
        (.TAG_Compound "" [.TAG_Byte "x" 1, .TAG_String "y" "hi"]) = .ok false) := by
  constructor
  · intro n cs b
    have hfuel : ∀ c ∈ cs, c.sizeT < (Tag.TAG_Compound n cs).sizeT := by
      intro c hc
      have := Tag.sizeLT_le_of_mem hc
      simp only [Tag.sizeT]
      omega
    cases b with
    | TAG_Compound m ds =>
      rw [issubsetT_compound_compound]
      simp only [Except.ok.injEq, allSubsetKeys, List.all_eq_true]
      constructor
      · intro h
        refine ⟨m, ds, rfl, fun k hk => ?_⟩
        have hpk := h k hk
        rcases lookupT_of_mem_keys hk with ⟨c, hc⟩
        cases hd : lookupT ds k with
        | none =>
          rw [subKey_none hd] at hpk
          simp at hpk
        | some d =>
          rw [subKey_some hc hd] at hpk
          refine ⟨c, d, hc, rfl, ?_⟩
          have hIF : issubsetF (Tag.TAG_Compound n cs).sizeT c d = .ok true := by
            cases hr : issubsetF (Tag.TAG_Compound n cs).sizeT c d with
            | ok bb =>
              cases bb
              · rw [hr] at hpk
                simp at hpk
              · rfl
            | error e =>
              rw [hr] at hpk
              simp at hpk
          rw [issubsetF_eq_issubsetT (hfuel c (lookupT_mem hc))] at hIF
          exact hIF
      · rintro ⟨m2, ds2, heq, hall⟩
        have hds : ds2 = ds := by
          injection heq with h1 h2
          exact h2.symm
        subst hds
        intro k hk
        rcases hall k hk with ⟨c, d, hc, hd, hsub⟩
        rw [subKey_some hc hd, issubsetF_eq_issubsetT (hfuel c (lookupT_mem hc)), hsub]
    | TAG_Byte nm v => simp [issubsetT, issubsetF, eqT]
    | TAG_Short nm v => simp [issubsetT, issubsetF, eqT]
    | TAG_Int nm v => simp [issubsetT, issubsetF, eqT]
    | TAG_Long nm v => simp [issubsetT, issubsetF, eqT]
    | TAG_Float nm v => simp [issubsetT, issubsetF, eqT]
    | TAG_Double nm v => simp [issubsetT, issubsetF, eqT]
    | TAG_String nm v => simp [issubsetT, issubsetF, eqT]
    | TAG_Byte_Array nm v => simp [issubsetT, issubsetF, eqT]
    | TAG_Int_Array nm v => simp [issubsetT, issubsetF, eqT]
    | TAG_Long_Array nm v => simp [issubsetT, issubsetF, eqT]
    | TAG_List nm t v => simp [issubsetT, issubsetF, eqT]
  · decide

/-- Python `int()` applied to an `int`: the identity. `TAG_Byte`,
`TAG_Short` and `TAG_Int` use `data_type = int`; the value property
setter applies it with no range check. -/
def intDataType (v : Int) : Int := v

/-- Constructor `TAG_Byte(value, name)`: stores `int(value)`; there is
no range check at construction time. -/
def TAG_Byte_init (v : Int) (name : String) : Tag :=
  .TAG_Byte name (intDataType v)

/-- Two's-complement big-endian bytes of a signed integer that fits in
`width` bytes (the payload `struct.pack` produces). -/
def intToBEBytes (width : Nat) (v : Int) : List Nat :=
  let u := (v % (2 ^ (8 * width) : Int)).toNat
  (List.range width).map (fun i => u / 256 ^ (width - 1 - i) % 256)

/-- `struct.pack` of a signed big-endian integer of the given byte
width: raises `struct.error` when the value is out of range. -/
def structPackSigned (width : Nat) (v : Int) : Except PyErr (List Nat) :=
  if v < -(2 ^ (8 * width - 1) : Int) ∨ (2 ^ (8 * width - 1) : Int) - 1 < v then
    .error .structError
  else
    .ok (intToBEBytes width v)

/-- `TAG_Value.write_value` for the fixed-width integer scalars:
`buf.write(self.fmt.pack(self.value))`; a `struct.error` from `pack`
is re-raised (the `except` clause only prints and re-raises). -/
def write_value : Tag → Except PyErr (List Nat)
  | .TAG_Byte _ v => structPackSigned 1 v
  | .TAG_Short _ v => structPackSigned 2 v
  | .TAG_Int _ v => structPackSigned 4 v
  | .TAG_Long _ v => structPackSigned 8 v
  | _ => .error .typeError

/-- `TAG_List.check_tag`: raise `TypeError` unless the tag's kind
matches the list's `list_type`. -/
def check_tag (list_type : Nat) (v : Tag) : Except PyErr Unit :=
  if v.tagID ≠ list_type then .error .typeError else .ok ()

/-- Python `list.insert` index normalisation: negative indices count
from the end, and the result is clamped into `[0, len]` (no error). -/
def pyListInsertAt (xs : List Tag) (i : Int) (v : Tag) : List Tag :=
  let n : Int := xs.length
  let j := if i < 0 then i + n else i
  let j := if j < 0 then 0 else if n < j then xs.length else j.toNat
  xs.take j ++ [v] ++ xs.drop j

/-- Python sequence index normalisation for item assignment/deletion:
negative indices count from the end; out of range raises `IndexError`. -/
def pyIndexNorm (len : Nat) (i : Int) : Except PyErr Nat :=
  let j := if i < 0 then i + len else i
  if 0 ≤ j ∧ j < len then .ok j.toNat else .error .indexError

/-- Python basic-slice normalisation (`start:stop`, step 1): defaults
0 / len, negatives count from the end, both clamped into `[0, len]`. -/
def pySliceBounds (len : Nat) (start stop : Option Int) : Nat × Nat :=
  let norm : Int → Nat := fun i =>
    let j := if i < 0 then i + len else i
    if j < 0 then 0 else if (len : Int) < j then len else j.toNat
  (match start with
   | none => 0
   | some i => norm i,
   match stop with
   | none => len
   | some i => norm i)

/-- `TAG_List.__init__(value, name, list_type)`: `list_type` defaults
to `TAG_BYTE`; the value setter (`data_type`) adopts the first
element's kind and asserts homogeneity (raising `AssertionError` on a
mixed list). -/
def TAG_List_init (value : List Tag) (name : String) (list_type : Nat) : Except PyErr Tag :=
  match value with
  | [] => .ok (.TAG_List name list_type [])
  | v :: _ =>
    if value.all (fun x => x.tagID = v.tagID) then .ok (.TAG_List name v.tagID value)
    else .error .assertionError

/-- `TAG_List.insert(index, value)`: an empty list adopts the new
element's kind; a nonempty list checks the kind first (`TypeError`
raised before any mutation); the element's name is cleared. -/
def listInsert (l : Tag) (i : Int) (v : Tag) : Except PyErr Tag :=
  match l with
  | .TAG_List n t xs =>
    if xs.length = 0 then
      .ok (.TAG_List n v.tagID (pyListInsertAt xs i (v.withName "")))
    else if v.tagID ≠ t then .error .typeError
    else .ok (.TAG_List n t (pyListInsertAt xs i (v.withName "")))
  | _ => .error .typeError

/-- `TAG_List.append(value)` (via `MutableSequence`): insert at the
end. -/
def listAppend (l : Tag) (v : Tag) : Except PyErr Tag :=
  match l with
  | .TAG_List _ _ xs => listInsert l (xs.length : Int) v
  | _ => .error .typeError

/-- `TAG_List.__setitem__` with an integer index: `check_tag` first
(so a kind mismatch raises `TypeError` even for a bad index), then the
Python item assignment (which may raise `IndexError`). The element's
name is not cleared here. -/
def listSetItem (l : Tag) (i : Int) (v : Tag) : Except PyErr Tag :=
  match l with
  | .TAG_List n t xs =>
    match check_tag t v with
    | .error e => .error e
    | .ok _ =>
      match pyIndexNorm xs.length i with
      | .error e => .error e
      | .ok j => .ok (.TAG_List n t (xs.set j v))
  | _ => .error .typeError

/-- `TAG_List.__setitem__` with a basic slice: every new element is
`check_tag`-ed, then the slice segment is replaced. -/
def listSetSlice (l : Tag) (start stop : Option Int) (vs : List Tag) : Except PyErr Tag :=
  match l with
  | .TAG_List n t xs =>
    if vs.all (fun x => x.tagID = t) then
      let p := pySliceBounds xs.length start stop
      .ok (.TAG_List n t (xs.take p.1 ++ vs ++ xs.drop (max p.1 p.2)))
    else .error .typeError
  | _ => .error .typeError

/-- `TAG_List.__delitem__` with an integer index. -/
def listDelItem (l : Tag) (i : Int) : Except PyErr Tag :=
  match l with
  | .TAG_List n t xs =>
    match pyIndexNorm xs.length i with
    | .error e => .error e
    | .ok j => .ok (.TAG_List n t (xs.eraseIdx j))
  | _ => .error .typeError

/-- Lists reachable through the public `TAG_List` operations named by
the claim: construction, `insert` (hence `append`), `__setitem__`
(index or slice), and deletion. -/
inductive ReachableList : Tag → Prop where
  | init {value name list_type l} :
      TAG_List_init value name list_type = .ok l → ReachableList l
  | insert {l i v l2} :
      ReachableList l → listInsert l i v = .ok l2 → ReachableList l2
  | setitem {l i v l2} :
      ReachableList l → listSetItem l i v = .ok l2 → ReachableList l2
  | setslice {l start stop vs l2} :
      ReachableList l → listSetSlice l start stop vs = .ok l2 → ReachableList l2
  | delitem {l i l2} :
      ReachableList l → listDelItem l i = .ok l2 → ReachableList l2

/-- The homogeneity invariant: every element's kind equals the list's
`list_type` (vacuously true for non-list tags). -/
def listHomogeneous : Tag → Prop
  | .TAG_List _ t xs => ∀ x ∈ xs, x.tagID = t
  | _ => True

theorem Tag.tagID_withName (v : Tag) (k : String) : (v.withName k).tagID = v.tagID := by
  cases v <;> rfl

theorem mem_pyListInsertAt {xs : List Tag} {i : Int} {v x : Tag}
    (h : x ∈ pyListInsertAt xs i v) : x ∈ xs ∨ x = v := by
  unfold pyListInsertAt at h
  simp only [List.append_assoc, List.mem_append, List.mem_singleton] at h
  rcases h with h | h | h
  · exact Or.inl (List.mem_of_mem_take h)
  · exact Or.inr h
  · exact Or.inl (List.mem_of_mem_drop h)

/-- C8. List homogeneity: every `TAG_List` reachable through the public
operations (construction, `insert`/`append`, `__setitem__`, deletion)
has all element kinds equal to its `list_type`; inserting the first
element into an empty list adopts that element's kind; inserting a
mismatched kind into a nonempty list raises `TypeError` (before any
mutation, so the list is unchanged). -/
theorem c8_list_homogeneity :
    (∀ l, ReachableList l → listHomogeneous l) ∧
    (∀ (n : String) (t : Nat) (i : Int) (v : Tag),
      listInsert (.TAG_List n t []) i v = .ok (.TAG_List n v.tagID [v.withName ""])) ∧
    (∀ (n : String) (t : Nat) (xs : List Tag) (i : Int) (v : Tag),
      xs ≠ [] → v.tagID ≠ t → listInsert (.TAG_List n t xs) i v = .error .typeError) := by
  refine ⟨?_, ?_, ?_⟩
  · intro l h
    induction h with
    | init hinit =>
      rename_i value name list_type l0
      match value, hinit with
      | [], hinit =>
        simp only [TAG_List_init, Except.ok.injEq] at hinit
        subst hinit
        intro x hx
        cases hx
      | v :: rest, hinit =>
        simp only [TAG_List_init] at hinit
        split at hinit
        · next hall =>
          simp only [Except.ok.injEq] at hinit
          subst hinit
          simp only [List.all_eq_true, decide_eq_true_eq] at hall
          exact fun x hx => hall x hx
        · cases hinit
    | insert hR hins IH =>
      rename_i l0 i v l2
      match l0, hins, IH with
      | .TAG_List n t xs, hins, IH =>
        simp only [listInsert] at hins
        split at hins
        · next h0 =>
          simp only [Except.ok.injEq] at hins
          subst hins
          have hxs : xs = [] := List.length_eq_zero.1 h0
          subst hxs
          intro x hx
          rcases mem_pyListInsertAt hx with hx | hx
          · cases hx
          · rw [hx, Tag.tagID_withName]
        · split at hins
          · cases hins
          · next hne =>
            simp only [Except.ok.injEq] at hins
            subst hins
            intro x hx
            rcases mem_pyListInsertAt hx with hx | hx
            · exact IH x hx
            · rw [hx, Tag.tagID_withName]
              omega
    | setitem hR hset IH =>
      rename_i l0 i v l2
      match l0, hset, IH with
      | .TAG_List n t xs, hset, IH =>
        simp only [listSetItem] at hset
        cases hck : check_tag t v with
        | error e =>
          rw [hck] at hset
          cases hset
        | ok u =>
          have hty : v.tagID = t := by
            by_contra h
            simp [check_tag, h] at hck
          rw [hck] at hset
          cases hidx : pyIndexNorm xs.length i with
          | error e2 =>
            rw [hidx] at hset
            cases hset
          | ok j =>
            rw [hidx] at hset
            simp only [Except.ok.injEq] at hset
            subst hset
            intro x hx
            rcases List.mem_or_eq_of_mem_set hx with hx | hx
            · exact IH x hx
            · rw [hx, hty]
    | setslice hR hset IH =>
      rename_i l0 start stop vs l2
      match l0, hset, IH with
      | .TAG_List n t xs, hset, IH =>
        simp only [listSetSlice] at hset
        split at hset
        · next hall =>
          simp only [Except.ok.injEq] at hset
          subst hset
          simp only [List.all_eq_true, decide_eq_true_eq] at hall
          intro x hx
          simp only [List.append_assoc, List.mem_append] at hx
          rcases hx with hx | hx | hx
          · exact IH x (List.mem_of_mem_take hx)
          · exact hall x hx
          · exact IH x (List.mem_of_mem_drop hx)
        · cases hset
    | delitem hR hdel IH =>
      rename_i l0 i l2
      match l0, hdel, IH with
      | .TAG_List n t xs, hdel, IH =>
        simp only [listDelItem] at hdel
        cases hidx : pyIndexNorm xs.length i with
        | error e2 => rw [hidx] at hdel; cases hdel
        | ok j =>
          rw [hidx] at hdel
          simp only [Except.ok.injEq] at hdel
          subst hdel
          intro x hx
          exact IH x (List.mem_of_mem_eraseIdx hx)
  · intro n t i v
    simp [listInsert, pyListInsertAt]
  · intro n t xs i v hne hty
    have h0 : xs.length ≠ 0 := fun h => hne (List.length_eq_zero.1 h)
    simp [listInsert, h0, hty]

/-- Witness for C8 at concrete inputs: a singleton byte list built by
the constructor is homogeneous; inserting a short into an empty
byte-typed list adopts kind 2; inserting a short into a nonempty
byte-typed list raises `TypeError`. -/
theorem c8_list_homogeneity_witness :
    listHomogeneous (Tag.TAG_List "" 1 [.TAG_Byte "" 5]) ∧
    listInsert (.TAG_List "" TAG_BYTE []) 0 (.TAG_Short "" 7) =
      .ok (.TAG_List "" TAG_SHORT [.TAG_Short "" 7]) ∧
    listInsert (.TAG_List "" TAG_BYTE [.TAG_Byte "" 5]) 0 (.TAG_Short "" 7) =
      .error .typeError := by
  refine ⟨?_, ?_, ?_⟩
  · exact c8_list_homogeneity.1 _
      (@ReachableList.init [.TAG_Byte "" 5] "" 1 (.TAG_List "" 1 [.TAG_Byte "" 5]) rfl)
  · exact c8_list_homogeneity.2.1 "" TAG_BYTE 0 (.TAG_Short "" 7)
  · exact c8_list_homogeneity.2.2 "" TAG_BYTE [.TAG_Byte "" 5] 0 (.TAG_Short "" 7)
      (List.cons_ne_nil _ _) (by decide)

/-- C10. No range check at construction: `TAG_Byte(v)` succeeds for
every integer and stores the value unchanged; the signed 8-bit range is
enforced only by `write_value` (`struct.pack` of format `>b`), which
returns the packed byte in range and raises `struct.error` out of
range. -/
theorem c10_no_range_check_at_construction :
    (∀ v : Int, TAG_Byte_init v "" = .TAG_Byte "" v) ∧
    (∀ v : Int, -128 ≤ v ∧ v ≤ 127 →
      write_value (.TAG_Byte "" v) = .ok [(v % 256).toNat]) ∧
    (∀ v : Int, v < -128 ∨ 127 < v →
      write_value (.TAG_Byte "" v) = .error .structError) := by
  refine ⟨fun v => rfl, ?_, ?_⟩
  · intro v hv
    have hpow : ((2 : Int) ^ (8 * 1 - 1)) = 128 := by norm_num
    have hpow8 : ((2 : Int) ^ (8 * 1)) = 256 := by norm_num
    simp only [write_value, structPackSigned, hpow, intToBEBytes, hpow8]
    rw [if_neg (by omega)]
    have hlt : (v % (256 : Int)).toNat < 256 := by omega
    simp only [List.range_succ, List.range_zero, List.nil_append, List.map_cons,
      List.map_nil, Nat.sub_self, pow_zero, Nat.div_one, Except.ok.injEq, List.cons.injEq,
      and_true]
    exact Nat.mod_eq_of_lt hlt
  · intro v hv
    have hpow : ((2 : Int) ^ (8 * 1 - 1)) = 128 := by norm_num
    simp only [write_value, structPackSigned, hpow]
    rw [if_pos (by omega)]

/-- Witness for C10 at concrete inputs: construction succeeds at 300
(out of the wire range), `write_value` packs 100, and `write_value`
raises at 300. -/
theorem c10_no_range_check_witness :
    TAG_Byte_init 300 "" = .TAG_Byte "" 300 ∧
    write_value (.TAG_Byte "" 100) = .ok [100] ∧
    write_value (.TAG_Byte "" 300) = .error .structError := by
  refine ⟨c10_no_range_check_at_construction.1 300, ?_, ?_⟩
  · have h := c10_no_range_check_at_construction.2.1 100 (by decide)
    simpa using h
  · exact c10_no_range_check_at_construction.2.2 300 (Or.inr (by decide))

/-- Python slicing `l[i:]` with possibly negative start (counts from
the end, clamped). -/
def pySliceFrom (l : List Nat) (i : Int) : List Nat :=
  let n : Int := l.length
  let j := if i < 0 then max (i + n) 0 else min i n
  l.drop j.toNat

/-- UTF-8 encoding of one unicode scalar value (what Python's
`.encode('utf-8')` emits per character). -/
def utf8EncodeCharB (c : Char) : List Nat :=
  let n := c.toNat
  if n < 128 then [n]
  else if n < 2048 then [192 + n / 64, 128 + n % 64]
  else if n < 65536 then [224 + n / 4096, 128 + n / 64 % 64, 128 + n % 64]
  else [240 + n / 262144, 128 + n / 4096 % 64, 128 + n / 64 % 64, 128 + n % 64]

/-- UTF-8 encoding of a string: Python's `s.encode('utf-8')`. -/
def utf8Encode (s : String) : List Nat :=
  s.data.flatMap utf8EncodeCharB

/-- Build a character from a scalar value, refusing surrogates and
out-of-range values. (Python 2's UTF-8 codec additionally tolerates
surrogate code points, which the Lean `Char` type cannot carry; no
claim below exercises surrogate payloads.) -/
def mkCharOpt (n : Nat) : Option Char :=
  if n < 55296 ∨ (57344 ≤ n ∧ n < 1114112) then some (Char.ofNat n) else none

/-- Strict UTF-8 decoding of a byte stream to unicode scalar values
(`bytes.decode('utf-8')`): a small state machine consuming one byte per
step. `none` is "no multibyte sequence in progress"; `some (k, acc, m)`
means `k` continuation bytes are still expected, `acc` holds the bits
so far, and `m` is the minimum scalar value (the overlong-form check).
Stray or missing continuation bytes, overlong forms and values beyond
U+10FFFF are rejected (`none` models `UnicodeDecodeError`). -/
def decodeUtf8SM : Option (Nat × Nat × Nat) → List Nat → Option (List Nat)
  | none, [] => some []
  | some _, [] => none
  | none, b :: rest =>
    if b < 128 then (decodeUtf8SM none rest).map (b :: ·)
    else if b < 192 then none
    else if b < 224 then decodeUtf8SM (some (1, b - 192, 128)) rest
    else if b < 240 then decodeUtf8SM (some (2, b - 224, 2048)) rest
    else if b < 248 then decodeUtf8SM (some (3, b - 240, 65536)) rest
    else none
  | some (k, acc, m), b :: rest =>
    if 128 ≤ b ∧ b < 192 then
      if k = 1 then
        if m ≤ acc * 64 + (b - 128) ∧ acc * 64 + (b - 128) ≤ 1114111 then
          (decodeUtf8SM none rest).map (fun ns => (acc * 64 + (b - 128)) :: ns)
        else none
      else decodeUtf8SM (some (k - 1, acc * 64 + (b - 128), m)) rest
    else none

/-- UTF-8 decoding to a string: decode the scalar values, then build
characters. (Python 2's UTF-8 codec additionally tolerates surrogate
code points, which the Lean `Char` type cannot carry; no claim below
exercises surrogate payloads.) -/
def utf8Decode (bs : List Nat) : Option String :=
  (decodeUtf8SM none bs).bind (fun ns =>
    (ns.mapM mkCharOpt).map (fun cs => ⟨cs⟩))


/-- `load_string(ctx)`: unpack a big-endian unsigned 16-bit length
(`>H`, raising `struct.error` when fewer than two bytes remain), take
that many following bytes (a Python slice, silently clamped at the end
of the buffer), and advance the offset by `string_len + 2`. The raw
bytes are returned; decoding happens at the call sites. -/
def load_string (data : List Nat) (offset : Int) : Except PyErr (List Nat × Int) :=
  match pySliceFrom data offset with
  | b0 :: b1 :: rest =>
    let string_len := b0 * 256 + b1
    .ok (rest.take string_len, offset + string_len + 2)
  | _ => .error .structError

/-- `write_string(string, buf)`: UTF-8 encode (`None` becomes the
empty string) and `struct.pack('>h…')` — a SIGNED 16-bit length prefix
followed by the bytes; `pack` raises `struct.error` when the length
exceeds 32767. -/
def write_string (s : Option String) : Except PyErr (List Nat) :=
  let encoded := match s with
    | none => utf8Encode ""
    | some s => utf8Encode s
  match structPackSigned 2 (encoded.length : Int) with
  | .error e => .error e
  | .ok lenBytes => .ok (lenBytes ++ encoded)

theorem mkCharOpt_toNat (c : Char) : mkCharOpt c.toNat = some c := by
  have hv : c.toNat < 55296 ∨ (57344 ≤ c.toNat ∧ c.toNat < 1114112) := c.valid
  rw [mkCharOpt, if_pos hv, Char.ofNat_toNat]

theorem decodeUtf8SM_encode_cons (c : Char) (bs : List Nat) :
    decodeUtf8SM none (utf8EncodeCharB c ++ bs) =
      (decodeUtf8SM none bs).map (c.toNat :: ·) := by
  have hval : c.toNat < 55296 ∨ (57344 ≤ c.toNat ∧ c.toNat < 1114112) := c.valid
  by_cases h1 : c.toNat < 128
  · simp only [utf8EncodeCharB, if_pos h1, List.cons_append, List.nil_append]
    rw [decodeUtf8SM, if_pos h1]
  · by_cases h2 : c.toNat < 2048
    · simp only [utf8EncodeCharB, if_neg h1, if_pos h2, List.cons_append, List.nil_append]
      rw [decodeUtf8SM, if_neg (by omega), if_neg (by omega), if_pos (by omega)]
      rw [decodeUtf8SM, if_pos (by constructor <;> omega), if_pos rfl,
        if_pos (by constructor <;> omega)]
      rw [show (192 + c.toNat / 64 - 192) * 64 + (128 + c.toNat % 64 - 128) = c.toNat by omega]
    · by_cases h3 : c.toNat < 65536
      · simp only [utf8EncodeCharB, if_neg h1, if_neg h2, if_pos h3, List.cons_append,
          List.nil_append]
        rw [decodeUtf8SM, if_neg (by omega), if_neg (by omega), if_neg (by omega),
          if_pos (by omega)]
        rw [decodeUtf8SM, if_pos (by constructor <;> omega)]
        rw [if_neg (by omega)]
        rw [decodeUtf8SM, if_pos (by constructor <;> omega), if_pos rfl,
          if_pos (by constructor <;> omega)]
        rw [show ((224 + c.toNat / 4096 - 224) * 64 + (128 + c.toNat / 64 % 64 - 128)) * 64 +
          (128 + c.toNat % 64 - 128) = c.toNat by omega]
      · have h4 : c.toNat < 1114112 := by omega
        simp only [utf8EncodeCharB, if_neg h1, if_neg h2, if_neg h3, List.cons_append,
          List.nil_append]
        rw [decodeUtf8SM, if_neg (by omega), if_neg (by omega), if_neg (by omega),
          if_neg (by omega), if_pos (by omega)]
        rw [decodeUtf8SM, if_pos (by constructor <;> omega)]
        rw [if_neg (by omega)]
        rw [decodeUtf8SM, if_pos (by constructor <;> omega)]
        rw [if_neg (by omega)]
        rw [decodeUtf8SM, if_pos (by constructor <;> omega), if_pos rfl,
          if_pos (by constructor <;> omega)]
        rw [show (((240 + c.toNat / 262144 - 240) * 64 + (128 + c.toNat / 4096 % 64 - 128)) *
          64 + (128 + c.toNat / 64 % 64 - 128)) * 64 + (128 + c.toNat % 64 - 128) = c.toNat
          by omega]

theorem decodeUtf8SM_encode (l : List Char) :
    decodeUtf8SM none (l.flatMap utf8EncodeCharB) = some (l.map Char.toNat) := by
  induction l with
  | nil => rfl
  | cons c cs ih =>
    rw [List.flatMap_cons, decodeUtf8SM_encode_cons, ih]
    rfl

theorem mapM_mkCharOpt (l : List Char) : (l.map Char.toNat).mapM mkCharOpt = some l := by
  induction l with
  | nil => rfl
  | cons c cs ih =>
    rw [List.map_cons, List.mapM_cons, mkCharOpt_toNat, ih]
    rfl

/-- UTF-8 decoding inverts UTF-8 encoding. -/
theorem utf8Decode_utf8Encode (s : String) : utf8Decode (utf8Encode s) = some s := by
  rw [utf8Decode, utf8Encode, decodeUtf8SM_encode, Option.some_bind, mapM_mkCharOpt]
  rfl

theorem pySliceFrom_zero (l : List Nat) : pySliceFrom l 0 = l := by
  have hm : min (0 : Int) (l.length : Int) = 0 := by omega
  simp [pySliceFrom, hm]

theorem load_string_cons (b0 b1 : Nat) (rest : List Nat) :
    load_string (b0 :: b1 :: rest) 0 =
      .ok (rest.take (b0 * 256 + b1), ((b0 * 256 + b1 : Nat) : Int) + 2) := by
  simp only [load_string, pySliceFrom_zero]
  norm_num

theorem structPackSigned_two {len : Nat} (h : len ≤ 32767) :
    structPackSigned 2 (len : Int) = .ok [len / 256, len % 256] := by
  have hp15 : ((2 : Int) ^ (8 * 2 - 1)) = 32768 := by norm_num
  have hp16 : ((2 : Int) ^ (8 * 2)) = 65536 := by norm_num
  rw [structPackSigned, hp15, if_neg (by omega)]
  rw [intToBEBytes, hp16]
  rw [show List.range 2 = [0, 1] from rfl]
  simp only [List.map_cons, List.map_nil, Except.ok.injEq, List.cons.injEq, and_true]
  constructor
  · show ((len : Int) % 65536).toNat / 256 ^ (2 - 1 - 0) % 256 = len / 256
    have hu : ((len : Int) % 65536).toNat = len := by omega
    rw [hu]
    norm_num
    omega
  · show ((len : Int) % 65536).toNat / 256 ^ (2 - 1 - 1) % 256 = len % 256
    have hu : ((len : Int) % 65536).toNat = len := by omega
    rw [hu]
    norm_num

/-- C7. String length-prefix asymmetry: `write_string` packs the
length as a SIGNED big-endian 16-bit integer (raising `struct.error`
beyond 32767) while `load_string` reads the prefix as an UNSIGNED
16-bit integer; consequently, for every unicode string whose UTF-8
encoding is at most 32767 bytes, reading back the bytes written by
`write_string` returns exactly that encoding, which UTF-8 decoding
maps back to the original string. -/
theorem c7_string_prefix_asymmetry :
    (∀ s : String, (utf8Encode s).length ≤ 32767 →
      write_string (some s) =
        .ok ((utf8Encode s).length / 256 :: (utf8Encode s).length % 256 :: utf8Encode s) ∧
      load_string
          ((utf8Encode s).length / 256 :: (utf8Encode s).length % 256 :: utf8Encode s) 0 =
        .ok (utf8Encode s, ((utf8Encode s).length : Int) + 2) ∧
      utf8Decode (utf8Encode s) = some s) ∧
    (∀ s : String, 32767 < (utf8Encode s).length →
      write_string (some s) = .error .structError) ∧
    (∀ (b0 b1 : Nat) (rest : List Nat),
      load_string (b0 :: b1 :: rest) 0 =
        .ok (rest.take (b0 * 256 + b1), ((b0 * 256 + b1 : Nat) : Int) + 2)) := by
  refine ⟨?_, ?_, load_string_cons⟩
  · intro s h
    refine ⟨?_, ?_, utf8Decode_utf8Encode s⟩
    · simp only [write_string, structPackSigned_two h]
      rfl
    · rw [load_string_cons]
      have hlen : (utf8Encode s).length / 256 * 256 + (utf8Encode s).length % 256 =
          (utf8Encode s).length := by
        omega
      rw [hlen, List.take_length]
  · intro s h
    have hp15 : ((2 : Int) ^ (8 * 2 - 1)) = 32768 := by norm_num
    simp only [write_string, structPackSigned, hp15]
    rw [if_pos (by omega)]

/-- Witness for C7 at the concrete string "abc" (3 UTF-8 bytes):
write then read-back round-trips. -/
theorem c7_string_prefix_witness :
    write_string (some "abc") = .ok [0, 3, 97, 98, 99] ∧
    load_string [0, 3, 97, 98, 99] 0 = .ok ([97, 98, 99], 5) ∧
    utf8Decode [97, 98, 99] = some "abc" := by
  have h := c7_string_prefix_asymmetry.1 "abc" (by decide)
  exact ⟨h.1, h.2.1, h.2.2⟩

/-- `TAG_Compound.ALLOW_DUPLICATE_KEYS` class attribute (default). -/
def ALLOW_DUPLICATE_KEYS : Bool := false

/-- Python single-item indexing `data[i]` on a byte buffer: negative
indices count from the end; out of range raises `IndexError`. -/
def pyIndex (l : List Nat) (i : Int) : Except PyErr Nat :=
  let j := if i < 0 then i + l.length else i
  if 0 ≤ j ∧ j < l.length then .ok (l.getD j.toNat 0) else .error .indexError

/-- Python slicing `l[a:b]`: both bounds normalised (negatives from
the end) and clamped; an inverted range yields the empty list. -/
def pySliceIN (l : List Nat) (a b : Int) : List Nat :=
  let n : Int := l.length
  let norm : Int → Nat := fun i => (if i < 0 then max (i + n) 0 else min i n).toNat
  (l.take (norm b)).drop (norm a)

/-- `struct.unpack_from` of a big-endian unsigned integer of the given
width at the start of `data`: `struct.error` when too few bytes. -/
def unpackUnsignedBE (width : Nat) (data : List Nat) : Except PyErr Nat :=
  if data.length < width then .error .structError
  else .ok ((data.take width).foldl (fun acc b => acc * 256 + b) 0)

/-- `struct.unpack_from` of a big-endian SIGNED integer (`>b`, `>h`,
`>i`, `>q`): two's-complement reinterpretation of the unsigned bits. -/
def unpackIntBE (width : Nat) (data : List Nat) : Except PyErr Int :=
  match unpackUnsignedBE width data with
  | .error e => .error e
  | .ok u =>
    .ok (if u < 2 ^ (8 * width - 1) then (u : Int) else (u : Int) - 2 ^ (8 * width))

/-- `struct.unpack_from(data, offset)` of a signed big-endian integer
at a given offset. -/
def unpackFromIntBE (width : Nat) (data : List Nat) (offset : Int) : Except PyErr Int :=
  if offset < 0 then .error .structError
  else unpackIntBE width (data.drop offset.toNat)

/-- Sign application for IEEE decoding. -/
def ieeeSign (s : Nat) (q : ℚ) : ℚ :=
  if s = 1 then -q else q

/-- Exact value of an IEEE-754 bit pattern with the given exponent and
mantissa widths (binary32: 8/23, binary64: 11/52). Finite values are
exact rationals; the all-ones exponent yields infinity or NaN. -/
def ieeeToFloatVal (expBits mantBits : Nat) (u : Nat) : FloatVal :=
  let s := u / 2 ^ (expBits + mantBits) % 2
  let e := u / 2 ^ mantBits % 2 ^ expBits
  let m := u % 2 ^ mantBits
  let bias := 2 ^ (expBits - 1) - 1
  if e = 2 ^ expBits - 1 then
    if m = 0 then .inf (s = 1) else .nan
  else if e = 0 then
    .finite (ieeeSign s ((m * 2 : Nat) / (2 ^ (mantBits + bias) : ℚ)))
  else
    .finite (ieeeSign s ((((2 ^ mantBits + m) * 2 ^ e : Nat) : ℚ) / (2 ^ (mantBits + bias) : ℚ)))

/-- `numpy.fromstring(bytes, dtype)` grouping: fold each `itemsize`
chunk big-endian (the `>u4` / `>u8` dtypes; `uint8` is width 1). -/
def groupBEF : Nat → Nat → List Nat → List Nat
  | 0 => fun _ _ => []
  | f + 1 => fun itemsize bs =>
    if bs = [] then []
    else (bs.take itemsize).foldl (fun acc b => acc * 256 + b) 0 :: groupBEF f itemsize (bs.drop itemsize)

/-- `numpy.fromstring(bytes, dtype)`: `ValueError` when the byte count
is not a multiple of the element size. -/
def npFromBytesBE (itemsize : Nat) (bs : List Nat) : Except PyErr (List Nat) :=
  if itemsize = 0 then .error .valueError
  else if bs.length % itemsize ≠ 0 then .error .valueError
  else .ok (groupBEF bs.length itemsize bs)

/-- Decoding of a byte string by Python 2 `unicode(...)` (the `name`
property setter): strict ASCII. -/
def pyAsciiDecode (bs : List Nat) : Except PyErr String :=
  if bs.all (· < 128) then
    match bs.mapM mkCharOpt with
    | some cs => .ok ⟨cs⟩
    | none => .error .unicodeDecodeError
  else .error .unicodeDecodeError

/-- Decoding of a byte string by `.decode('utf-8')` (`TAG_String`
payloads). -/
def pyUtf8Decode (bs : List Nat) : Except PyErr String :=
  match utf8Decode bs with
  | some s => .ok s
  | none => .error .unicodeDecodeError

/-- `TAG_Byte_Array.load_from` (shared by the three array classes):
unpack a signed 32-bit length from the tail of the buffer, slice
`data[4 : length * itemsize + 4]` (Python slice semantics, so a short
buffer silently clamps), group into elements, and advance the offset by
`length * itemsize + 4`. -/
def loadArray (itemsize : Nat) (data : List Nat) (offset : Int) : Except PyErr (List Nat × Int) :=
  let d := pySliceFrom data offset
  match unpackIntBE 4 d with
  | .error e => .error e
  | .ok sl =>
    match npFromBytesBE itemsize (pySliceIN d 4 (sl * itemsize + 4)) with
    | .error e => .error e
    | .ok vals => .ok (vals, offset + sl * itemsize + 4)

/-- Work items of the recursive binary loader: one tag payload
(`tag_classes[tag_type].load_from`), the element loop of
`TAG_List.load_from`, or the child loop of `TAG_Compound.load_from`. -/
inductive LoadJob where
  | tag (tagType : Nat) (offset : Int)
  | listItems (lt : Nat) (count : Nat) (offset : Int) (acc : Tag)
  | compoundItems (offset : Int) (acc : List Tag)

/-- The recursive binary loader (fuelled). Scalars unpack their fixed
format and advance; strings load raw bytes and UTF-8 decode; arrays use
`loadArray`; a list reads its element-kind byte and signed 32-bit count
(a negative count means zero iterations, as `xrange` produces nothing),
then appends loaded elements; a compound loops while the offset is
inside the buffer — so a missing zero terminator simply ends the loop —
reading a tag-type byte (zero terminates), a name, and a payload, and
appends the named child directly to its value list (no deduplication).
An unknown tag type raises `KeyError` from the `tag_classes` lookup. -/
def runLoad : Nat → List Nat → LoadJob → Except PyErr (Tag × Int)
  | 0 => fun _ _ => .error .outOfFuel
  | fuel + 1 => fun data job =>
    match job with
    | .tag tagType offset =>
      if tagType = TAG_BYTE then
        match unpackIntBE 1 (pySliceFrom data offset) with
        | .error e => .error e
        | .ok v => .ok (.TAG_Byte "" v, offset + 1)
      else if tagType = TAG_SHORT then
        match unpackIntBE 2 (pySliceFrom data offset) with
        | .error e => .error e
        | .ok v => .ok (.TAG_Short "" v, offset + 2)
      else if tagType = TAG_INT then
        match unpackIntBE 4 (pySliceFrom data offset) with
        | .error e => .error e
        | .ok v => .ok (.TAG_Int "" v, offset + 4)
      else if tagType = TAG_LONG then
        match unpackIntBE 8 (pySliceFrom data offset) with
        | .error e => .error e
        | .ok v => .ok (.TAG_Long "" v, offset + 8)
      else if tagType = TAG_FLOAT then
        match unpackUnsignedBE 4 (pySliceFrom data offset) with
        | .error e => .error e
        | .ok u => .ok (.TAG_Float "" (ieeeToFloatVal 8 23 u), offset + 4)
      else if tagType = TAG_DOUBLE then
        match unpackUnsignedBE 8 (pySliceFrom data offset) with
        | .error e => .error e
        | .ok u => .ok (.TAG_Double "" (ieeeToFloatVal 11 52 u), offset + 8)
      else if tagType = TAG_BYTE_ARRAY then
        match loadArray 1 data offset with
        | .error e => .error e
        | .ok (vals, off2) => .ok (.TAG_Byte_Array "" vals, off2)
      else if tagType = TAG_STRING then
        match load_string data offset with
        | .error e => .error e
        | .ok (bs, off2) =>
          match pyUtf8Decode bs with
          | .error e => .error e
          | .ok s => .ok (.TAG_String "" s, off2)
      else if tagType = TAG_LIST then
        match pyIndex data offset with
        | .error e => .error e
        | .ok lt =>
          match unpackFromIntBE 4 data (offset + 1) with
          | .error e => .error e
          | .ok llen =>
            runLoad fuel data (.listItems lt (max 0 llen).toNat (offset + 5) (.TAG_List "" lt []))
      else if tagType = TAG_COMPOUND then
        runLoad fuel data (.compoundItems offset [])
      else if tagType = TAG_INT_ARRAY then
        match loadArray 4 data offset with
        | .error e => .error e
        | .ok (vals, off2) => .ok (.TAG_Int_Array "" vals, off2)
      else if tagType = TAG_LONG_ARRAY then
        match loadArray 8 data offset with
        | .error e => .error e
        | .ok (vals, off2) => .ok (.TAG_Long_Array "" vals, off2)
      else .error .keyError
    | .listItems lt count offset acc =>
      match count with
      | 0 => .ok (acc, offset)
      | c + 1 =>
        match runLoad fuel data (.tag lt offset) with
        | .error e => .error e
        | .ok (tag, off2) =>
          match listAppend acc tag with
          | .error e => .error e
          | .ok acc2 => runLoad fuel data (.listItems lt c off2 acc2)
    | .compoundItems offset acc =>
      if offset < (data.length : Int) then
        match pyIndex data offset with
        | .error e => .error e
        | .ok tag_type =>
          if tag_type = 0 then .ok (.TAG_Compound "" acc, offset + 1)
          else
            match load_string data (offset + 1) with
            | .error e => .error e
            | .ok (nameBytes, off2) =>
              match runLoad fuel data (.tag tag_type off2) with
              | .error e => .error e
              | .ok (tag, off3) =>
                match pyAsciiDecode nameBytes with
                | .error e => .error e
                | .ok nm => runLoad fuel data (.compoundItems off3 (acc ++ [tag.withName nm]))
      else .ok (.TAG_Compound "" acc, offset)

/-- `_load_buffer(buf)` (fuelled): empty buffer raises
`NBTFormatError`; a first byte other than 10 raises `NBTFormatError` —
except that building the error message evaluates
`magic.view(dtype='uint32')`, which itself raises `ValueError` when
fewer than 4 bytes are present. Otherwise the root name is read at
offset 1, `TAG_Compound.load_from` runs, and the root name assignment
sits in a `try`/`except: pass`, so a name that fails ASCII decoding
leaves the root named `""`. -/
def _load_buffer (fuel : Nat) (buf : List Nat) : Except PyErr Tag :=
  if buf.length = 0 then .error .nbtFormatError
  else if buf.headD 0 ≠ 10 then
    if buf.length < 4 then .error .valueError else .error .nbtFormatError
  else
    match load_string buf 1 with
    | .error e => .error e
    | .ok (nameBytes, off1) =>
      match runLoad fuel buf (.compoundItems off1 []) with
      | .error e => .error e
      | .ok (tag, _) =>
        match pyAsciiDecode nameBytes with
        | .ok nm => .ok (tag.withName nm)
        | .error _ => .ok tag

/-- `load` on a raw (non-gzip) buffer, with fuel that always suffices
(every loader step consumes buffer bytes or items). -/
def nbtLoad (buf : List Nat) : Except PyErr Tag :=
  _load_buffer (buf.length + 2) buf

/-- C3 counterexample. A buffer holding a root compound with an empty
name and NO zero terminator (truncated before the compound's contents
are complete) does not raise: `load` returns an empty compound. The
claim says every such truncation raises a binary format error. -/
theorem c3_counterexample_missing_terminator :
    nbtLoad [10, 0, 0] = .ok (.TAG_Compound "" []) := by
  rfl

/-- C3 amended. `load` raises on a missing root compound: an empty
buffer raises `NBTFormatError`, and a nonempty buffer whose first byte
is not 10 raises `NBTFormatError` when at least 4 bytes are present and
`ValueError` (from building the error message) when shorter. But
truncation tolerated by Python slicing does not raise: a root compound
without its zero terminator decodes to the partial tree, and a negative
list element count yields an empty list without error. -/
theorem c3_decoder_failure_amended :
    nbtLoad [] = .error .nbtFormatError ∧
    (∀ buf : List Nat, buf ≠ [] → buf.headD 0 ≠ 10 →
      nbtLoad buf = .error (if buf.length < 4 then .valueError else .nbtFormatError)) ∧
    nbtLoad [10, 0, 0] = .ok (.TAG_Compound "" []) ∧
    nbtLoad [10, 0, 0, 9, 0, 1, 108, 1, 255, 255, 255, 255, 0] =
      .ok (.TAG_Compound "" [.TAG_List "l" 1 []]) := by
  refine ⟨rfl, ?_, rfl, rfl⟩
  intro buf h1 h2
  have hlen : buf.length ≠ 0 := by
    simpa [List.length_eq_zero] using h1
  rw [nbtLoad, _load_buffer, if_neg hlen, if_pos h2]
  by_cases h4 : buf.length < 4
  · rw [if_pos h4, if_pos h4]
  · rw [if_neg h4, if_neg h4]

/-- Witness for C3 at concrete wrong-magic buffers: shorter than 4
bytes raises `ValueError`, otherwise `NBTFormatError`. -/
theorem c3_decoder_failure_witness :
    nbtLoad [1, 2] = .error .valueError ∧
    nbtLoad [1, 2, 3, 4] = .error .nbtFormatError := by
  constructor
  · exact c3_decoder_failure_amended.2.1 [1, 2] (by decide) (by decide)
  · exact c3_decoder_failure_amended.2.1 [1, 2, 3, 4] (by decide) (by decide)

/-- C5 counterexample. Decoding a buffer whose root compound carries
two children both named "a" yields a compound where `get_all("a")`
returns two tags, although `ALLOW_DUPLICATE_KEYS` is `False` and was
never enabled: the claim that decoder output has at most one tag per
key fails. -/
theorem c5_counterexample_duplicate_keys :
    nbtLoad [10, 0, 0, 1, 0, 1, 97, 1, 1, 0, 1, 97, 2, 0] =
      .ok (.TAG_Compound "" [.TAG_Byte "a" 1, .TAG_Byte "a" 2]) ∧
    (get_all [.TAG_Byte "a" 1, .TAG_Byte "a" 2] "a").length ≠ 1 ∧
    ALLOW_DUPLICATE_KEYS = false := by
  refine ⟨by rfl, by decide, rfl⟩

/-- C5 amended. `TAG_Compound.load_from` appends children directly to
the value list with no deduplication (unlike `__setitem__`), so
`get_all(k)` on decoder output returns one tag per occurrence of `k`
in the input buffer — possibly several, even though
`ALLOW_DUPLICATE_KEYS` is off; in general `get_all` returns exactly
the children whose name equals the key. -/
theorem c5_decoder_appends_duplicates :
    (∀ (cs : List Tag) (k : String),
      (get_all cs k).length = cs.countP (fun c => decide (c.nameOf = k))) ∧
    ALLOW_DUPLICATE_KEYS = false ∧
    nbtLoad [10, 0, 0, 1, 0, 1, 97, 1, 1, 0, 1, 97, 2, 0] =
      .ok (.TAG_Compound "" [.TAG_Byte "a" 1, .TAG_Byte "a" 2]) ∧
    get_all [.TAG_Byte "a" 1, .TAG_Byte "a" 2] "a" =
      [.TAG_Byte "a" 1, .TAG_Byte "a" 2] := by
  refine ⟨?_, rfl, by rfl, by rfl⟩
  intro cs k
  rw [get_all, List.countP_eq_length_filter]

/-- Python `str.replace` (fuelled): scan left to right; at a match,
emit the replacement and continue after the matched span (no overlap,
no reprocessing of the replacement). -/
def replaceListF : Nat → List Char → List Char → List Char → List Char
  | 0 => fun _ _ s => s
  | f + 1 => fun pat rep s =>
    match s with
    | [] => []
    | c :: rest =>
      if pat.isPrefixOf s then rep ++ replaceListF f pat rep (s.drop pat.length)
      else c :: replaceListF f pat rep rest

/-- Python `str.replace` on strings (every use in the source has a
nonempty pattern, for which the length fuel always suffices). -/
def pyReplace (s pat rep : String) : String :=
  ⟨replaceListF s.data.length pat.data rep.data s.data⟩

/-- The escape chain of `TAG_String.json`:
`value.replace('\\','\\\\').replace('\n','\\n"').replace('"','\\"')`
(the newline replacement really appends a stray quote character, which
the third replace then escapes). -/
def escapeJsonValue (s : String) : String :=
  pyReplace (pyReplace (pyReplace s "\\" "\\\\") "\n" "\\n\"") "\"" "\\\""

/-- The unescape chain of the textual reader (`_jsonParser_jsonToTag`,
quoted branch):
`sansQuotes.replace('\\"','"').replace('\\n','\n"').replace('\\\\','\\')`
(again with a stray quote appended after a decoded newline). -/
def unescapeJsonValue (s : String) : String :=
  pyReplace (pyReplace (pyReplace s "\\\"" "\"") "\\n" "\n\"") "\\\\" "\\"

/-- Left-pad a digit string with zeros to the given width. -/
def padZeros (k : Nat) (s : String) : String :=
  ⟨List.replicate (k - s.length) (Char.ofNat 48) ++ s.data⟩

/-- Rendering of a finite float value. Python 2's `unicode(float)` is
`"%.12g"`; here finite floats are exact rationals and terminating
decimals render exactly — no verified claim depends on this rendering. -/
def ratRepr (q : ℚ) : String :=
  match (List.range 31).find? (fun k => (10 ^ k : Int) % (q.den : Int) = 0) with
  | some k =>
    if k = 0 then toString q.num ++ ".0"
    else
      let scaled := q.num * ((10 ^ k : Int) / (q.den : Int))
      let a := scaled.natAbs
      (if scaled < 0 then "-" else "") ++ toString (a / 10 ^ k) ++ "." ++
        padZeros k (toString (a % 10 ^ k))
  | none => toString q.num ++ "/" ++ toString q.den

/-- `unicode(value)` for a float payload. -/
def floatValRepr : FloatVal → String
  | .finite q => ratRepr q
  | .inf neg => if neg then "-inf" else "inf"
  | .nan => "nan"

/-- The name prefix of the scalar `json` methods: empty name emits
nothing, otherwise `name:`. -/
def namePfx (n : String) : String :=
  if n = "" then "" else n ++ ":"

/-- Strip the final character when it is a comma (`if result[-1] ==
u"," : result = result[:-1]` — every `json` method applies this to a
string that is never empty). -/
def stripTrailingComma (s : String) : String :=
  if s.data.getLast? = some (Char.ofNat 44) then ⟨s.data.dropLast⟩ else s

/-- The `sort` argument of `json`: `None` (insertion order), a
list/tuple of priority keys, or anything else (fully sorted). -/
inductive JsonSort where
  | noneS
  | priority (keys : List String)
  | sorted

/-- Key order chosen by `TAG_Compound.json`: insertion order; or the
priority keys present in the compound followed by the remaining keys
sorted; or all keys sorted. Each key is then looked up first-match, as
`self[key]` does. -/
def compoundKeysOrdered (sort : JsonSort) (cs : List Tag) : List String :=
  match sort with
  | .noneS => keysOf cs
  | .priority ks =>
    ks.filter (fun k => k ∈ keysOf cs) ++
      ((keysOf cs).mergeSort (fun a b => a ≤ b)).filter (fun k => k ∉ ks)
  | .sorted => (keysOf cs).mergeSort (fun a b => a ≤ b)

/-- The `json` methods (fuelled). Scalars emit `name:`-prefixed values
with their one-character kind suffix (Int bare); strings emit the
escape chain between double quotes; arrays emit `[B;`/`[I;`/`[L;`
bodies with per-kind element suffixes; lists and compounds emit their
children separated by commas with the final comma stripped. -/
def jsonF : Nat → JsonSort → Tag → String
  | 0 => fun _ _ => ""
  | f + 1 => fun sort t =>
    match t with
    | .TAG_Byte n v => namePfx n ++ toString v ++ "b"
    | .TAG_Short n v => namePfx n ++ toString v ++ "s"
    | .TAG_Int n v => namePfx n ++ toString v
    | .TAG_Long n v => namePfx n ++ toString v ++ "l"
    | .TAG_Float n v => namePfx n ++ floatValRepr v ++ "f"
    | .TAG_Double n v => namePfx n ++ floatValRepr v ++ "d"
    | .TAG_String n s =>
      (if n = "" then "\"" else n ++ ":\"") ++ escapeJsonValue s ++ "\""
    | .TAG_Byte_Array n vs =>
      stripTrailingComma
        ((if n = "" then "[B;" else n ++ ":[B;") ++
          String.join (vs.map (fun v => toString v ++ "b,"))) ++ "]"
    | .TAG_Int_Array n vs =>
      stripTrailingComma
        ((if n = "" then "[I;" else n ++ ":[I;") ++
          String.join (vs.map (fun v => toString v ++ ","))) ++ "]"
    | .TAG_Long_Array n vs =>
      stripTrailingComma
        ((if n = "" then "[L;" else n ++ ":[L;") ++
          String.join (vs.map (fun v => toString v ++ "l,"))) ++ "]"
    | .TAG_List n _ xs =>
      stripTrailingComma
        ((if n = "" then "[" else n ++ ":[") ++
          String.join (xs.map (fun x => jsonF f sort x ++ ","))) ++ "]"
    | .TAG_Compound n cs =>
      stripTrailingComma
        ((if n = "" then "\x7b" else n ++ ":\x7b") ++
          String.join
            (((compoundKeysOrdered sort cs).filterMap (lookupT cs)).map
              (fun c => jsonF f sort c ++ ","))) ++ "\x7d"

/-- The `json` method with always-sufficient fuel. -/
def jsonT (t : Tag) (sort : JsonSort) : String :=
  jsonF (t.sizeT + 1) sort t

theorem replaceListF_single (p : Char) (rep : List Char) :
    ∀ (f : Nat) (s : List Char), s.length ≤ f →
      replaceListF f [p] rep s = s.flatMap (fun c => if c = p then rep else [c]) := by
  intro f
  induction f with
  | zero =>
    intro s hs
    have : s = [] := List.length_eq_zero.1 (Nat.le_zero.1 hs)
    subst this
    rfl
  | succ f ih =>
    intro s hs
    match s with
    | [] => rfl
    | c :: rest =>
      simp only [replaceListF]
      by_cases h : p = c
      · subst h
        rw [if_pos (by simp [List.isPrefixOf])]
        rw [show List.drop [p].length (p :: rest) = rest from rfl]
        rw [ih rest (by simpa using hs)]
        simp [List.flatMap_cons]
      · rw [if_neg (by simp [List.isPrefixOf, h])]
        rw [ih rest (by simpa using hs)]
        simp only [List.flatMap_cons]
        rw [if_neg (fun hc => h hc.symm)]
        rfl

theorem pyReplace_single (s pat rep : String) (p : Char) (hp : pat.data = [p]) :
    pyReplace s pat rep =
      ⟨s.data.flatMap (fun c => if c = p then rep.data else [c])⟩ := by
  rw [pyReplace, hp]
  exact congrArg String.mk (replaceListF_single p rep.data s.data.length s.data (le_refl _))

/-- Per-character escape the emitter actually applies: the composition
of the three `replace` passes of `TAG_String.json` (backslash doubles;
NEWLINE becomes backslash-n-backslash-quote, the stray quote coming
from the second pass and escaped by the third; quote gains a
backslash). -/
def escActualChar (c : Char) : List Char :=
  if c = '\\' then ['\\', '\\']
  else if c = '\n' then ['\\', 'n', '\\', '"']
  else if c = '"' then ['\\', '"']
  else [c]

/-- First `replace` pass of `TAG_String.json` as a per-character map. -/
def escStep1 (c : Char) : List Char :=
  if c = '\\' then ['\\', '\\'] else [c]

/-- Second `replace` pass of `TAG_String.json` as a per-character map. -/
def escStep2 (c : Char) : List Char :=
  if c = '\n' then ['\\', 'n', '"'] else [c]

/-- Third `replace` pass of `TAG_String.json` as a per-character map. -/
def escStep3 (c : Char) : List Char :=
  if c = '"' then ['\\', '"'] else [c]

theorem escape_chain_char (c : Char) :
    ((escStep1 c).flatMap escStep2).flatMap escStep3 = escActualChar c := by
  by_cases h1 : c = '\\'
  · subst h1
    decide
  · by_cases h2 : c = '\n'
    · subst h2
      decide
    · by_cases h3 : c = '"'
      · subst h3
        decide
      · simp [escStep1, escStep2, escStep3, escActualChar, h1, h2, h3]

theorem escape_chain_list (l : List Char) :
    ((l.flatMap escStep1).flatMap escStep2).flatMap escStep3 = l.flatMap escActualChar := by
  induction l with
  | nil => rfl
  | cons c cs ih =>
    simp only [List.flatMap_cons, List.flatMap_append, ih, escape_chain_char]

theorem escapeJsonValue_eq (s : String) :
    escapeJsonValue s = ⟨s.data.flatMap escActualChar⟩ := by
  rw [escapeJsonValue]
  rw [pyReplace_single s "\\" "\\\\" '\\' rfl]
  rw [pyReplace_single _ "\n" "\\n\"" '\n' rfl]
  rw [pyReplace_single _ "\"" "\\\"" '"' rfl]
  refine congrArg String.mk ?_
  show ((s.data.flatMap escStep1).flatMap escStep2).flatMap escStep3 =
    s.data.flatMap escActualChar
  exact escape_chain_list s.data

/-- Modelled from the spec: the escaping the claim asserts — exactly
backslash-backslash for backslash, backslash-n for newline, and
backslash-quote for quote, wrapped in double quotes, with no other
characters altered. -/
def specEscapeChar (c : Char) : List Char :=
  if c = '\\' then ['\\', '\\']
  else if c = '\n' then ['\\', 'n']
  else if c = '"' then ['\\', '"']
  else [c]

/-- Modelled from the spec: the claimed emission for an unnamed
`TAG_String`. -/
def specStringJson (s : String) : String :=
  "\"" ++ ⟨s.data.flatMap specEscapeChar⟩ ++ "\""

/-- C6 counterexample. For the one-character string NEWLINE the
emitter produces `"\n\""` — a stray escaped quote follows the
backslash-n — which differs from the claimed `"\n"`. -/
theorem c6_counterexample_newline :
    jsonT (.TAG_String "" "\n") .noneS = "\"\\n\\\"\"" ∧
    jsonT (.TAG_String "" "\n") .noneS ≠ specStringJson "\n" := by
  constructor <;> decide

/-- C6 amended. `TAG_String(s).json()` wraps the value in double
quotes and escapes per character: backslash to backslash-backslash,
quote to backslash-quote — but each newline becomes
backslash-n-backslash-quote (the replacement for newline appends a
quote character, which the subsequent quote pass escapes); no other
characters are altered. -/
theorem c6_string_escaping_amended (s : String) :
    jsonT (.TAG_String "" s) .noneS = "\"" ++ ⟨s.data.flatMap escActualChar⟩ ++ "\"" := by
  show "\"" ++ escapeJsonValue s ++ "\"" = "\"" ++ (⟨s.data.flatMap escActualChar⟩ : String) ++ "\""
  rw [escapeJsonValue_eq]

/-- The two byte orders. -/
inductive Endian where
  | big
  | little
deriving DecidableEq, Repr

/-- The process-wide settings `littleEndianNBT` mutates: the module
global `string_len_fmt`, the six scalar `fmt` class attributes, the two
array dtypes, the module global `write_string`, and
`TAG_Byte_Array.write_value`. -/
structure EndianProfile where
  string_len_fmt : Endian
  byteFmt : Endian
  shortFmt : Endian
  intFmt : Endian
  longFmt : Endian
  floatFmt : Endian
  doubleFmt : Endian
  intArrayDtype : Endian
  longArrayDtype : Endian
  writeStringImpl : Endian
  byteArrayWriteValueImpl : Endian
deriving DecidableEq, Repr

/-- The default (big-endian) settings. -/
def bigEndianProfile : EndianProfile :=
  ⟨.big, .big, .big, .big, .big, .big, .big, .big, .big, .big, .big⟩

/-- The assignments `littleEndianNBT` performs before `yield`: every
setting is switched to little-endian (the prior values are not saved). -/
def littleEndianSet (_ : EndianProfile) : EndianProfile :=
  ⟨.little, .little, .little, .little, .little, .little, .little, .little, .little,
    .little, .little⟩

/-- The assignments after `yield`: every setting is reset to the
hard-coded big-endian default, regardless of what was in effect at
entry. -/
def bigEndianReset (_ : EndianProfile) : EndianProfile :=
  ⟨.big, .big, .big, .big, .big, .big, .big, .big, .big, .big, .big⟩

/-- The `littleEndianNBT` context manager, with generator semantics:
the body runs on the switched profile; on normal completion the code
after `yield` resets the settings; there is NO `try`/`finally`, so when
the body raises, the exception propagates through the `yield` and the
reset code never runs — the profile is whatever the body left. -/
def littleEndianNBT {α : Type}
    (body : EndianProfile → Except (EndianProfile × PyErr) (EndianProfile × α))
    (s : EndianProfile) : Except (EndianProfile × PyErr) (EndianProfile × α) :=
  match body (littleEndianSet s) with
  | .ok (s2, a) => .ok (bigEndianReset s2, a)
  | .error (s2, e) => .error (s2, e)

/-- C4. The endian scope does not restore on the error path and does
not restore saved settings: a body that raises leaves every setting
little-endian (there is no `try`/`finally` around the `yield`), and in
nested scopes the inner exit resets the profile to hard-coded
big-endian while the enclosing scope is still active, instead of the
little-endian setting saved at the inner entry. -/
theorem c4_littleEndian_scope_bug :
    littleEndianNBT
        (fun s => (.error (s, .valueError) : Except (EndianProfile × PyErr)
          (EndianProfile × Unit)))
        bigEndianProfile =
      .error (littleEndianSet bigEndianProfile, .valueError) ∧
    littleEndianSet bigEndianProfile ≠ bigEndianProfile ∧
    littleEndianNBT
        (fun s =>
          match littleEndianNBT
              (fun t => (.ok (t, ()) : Except (EndianProfile × PyErr)
                (EndianProfile × Unit))) s with
          | .ok (s2, _) => .ok (s2, s2)
          | .error e => .error e)
        bigEndianProfile =
      .ok (bigEndianProfile, bigEndianProfile) ∧
    bigEndianProfile ≠ littleEndianSet bigEndianProfile := by
  refine ⟨rfl, by decide, rfl, by decide⟩

/-- Digits to a number (for Python `int()` / `float()` parsing). -/
def digitsToNat (l : List Char) : Nat :=
  l.foldl (fun a c => a * 10 + (c.toNat - 48)) 0

/-- Python `int(str)`: strip whitespace, optional sign, nonempty run
of decimal digits; anything else raises (here: `none`). -/
def pyParseInt (s : String) : Option Int :=
  let t := ((s.data.dropWhile Char.isWhitespace).reverse.dropWhile Char.isWhitespace).reverse
  match t with
  | [] => none
  | c :: rest =>
    let p := if c = '-' then (true, rest)
      else if c = '+' then (false, rest)
      else (false, c :: rest)
    if p.2 ≠ [] ∧ p.2.all Char.isDigit then
      some (if p.1 then -(digitsToNat p.2 : Int) else (digitsToNat p.2 : Int))
    else none

/-- Decimal mantissa of a float literal: digits with at most one dot
(at least one digit overall); the value is `num / 10 ^ k`. -/
def parseDecimalMant (l : List Char) : Option (Nat × Nat) :=
  let p := l.span (fun c => c ≠ '.')
  match p.2 with
  | [] =>
    if p.1 ≠ [] ∧ p.1.all Char.isDigit then some (digitsToNat p.1, 0) else none
  | _ :: fp =>
    if fp.contains '.' then none
    else if (p.1 ≠ [] ∨ fp ≠ []) ∧ p.1.all Char.isDigit ∧ fp.all Char.isDigit then
      some (digitsToNat (p.1 ++ fp), fp.length)
    else none

/-- Exponent of a float literal: optional sign, nonempty digit run. -/
def parseExp (l : List Char) : Option Int :=
  match l with
  | [] => none
  | c :: rest =>
    let p := if c = '-' then (true, rest)
      else if c = '+' then (false, rest)
      else (false, c :: rest)
    if p.2 ≠ [] ∧ p.2.all Char.isDigit then
      some (if p.1 then -(digitsToNat p.2 : Int) else (digitsToNat p.2 : Int))
    else none

/-- Python `float(str)`: strip whitespace, optional sign, then `inf` /
`infinity` / `nan` (case-insensitive) or a decimal mantissa with an
optional `e`/`E` exponent. The value is exact (`FloatVal` rationals
model floats without rounding). -/
def pyParseFloat (s : String) : Option FloatVal :=
  let t := ((s.data.dropWhile Char.isWhitespace).reverse.dropWhile Char.isWhitespace).reverse
  match t with
  | [] => none
  | c :: rest =>
    let sp := if c = '-' then (true, rest)
      else if c = '+' then (false, rest)
      else (false, c :: rest)
    let low := sp.2.map Char.toLower
    if low = "inf".data ∨ low = "infinity".data then some (.inf sp.1)
    else if low = "nan".data then some .nan
    else
      let q := sp.2.span (fun c => ¬(c = 'e' ∨ c = 'E'))
      match parseDecimalMant q.1 with
      | none => none
      | some (num, k) =>
        match q.2 with
        | [] =>
          let v : ℚ := (num : ℚ) / 10 ^ k
          some (.finite (if sp.1 then -v else v))
        | _ :: ex =>
          match parseExp ex with
          | none => none
          | some e =>
            let v : ℚ := (num : ℚ) / 10 ^ k * (10 : ℚ) ^ e
            some (.finite (if sp.1 then -v else v))

/-- Python `unicode(s.lower())`-style lowering used for the boolean
check and the type-suffix comparison. -/
def pyLower (s : String) : String :=
  ⟨s.data.map Char.toLower⟩

/-- `_jsonParser_jsonToTag(json)`: classify a bare token. Booleans are
first rewritten to `1b` / `0b`; then the token is classified by its
trailing character (`b`/`s`/`l`/`f`/`d` suffixes with a string
fallback when the numeric parse raises, a quoted string with the
unescape chain, else Double when a dot is present, else Int).
Indexing `json[-1]` on an empty token raises `IndexError`. -/
def _jsonParser_jsonToTag (json0 : String) : Except PyErr Tag :=
  let json := if pyLower json0 = "true" then "1b"
    else if pyLower json0 = "false" then "0b"
    else json0
  match json.data.getLast? with
  | none => .error .indexError
  | some tailChar =>
    let sansTail : String := ⟨json.data.dropLast⟩
    let sansQuotes : String :=
      if json.data.head? = some '"' ∧ json.data.getLast? = some '"' then
        ⟨(json.data.drop 1).dropLast⟩
      else json
    if tailChar.toLower = 'b' then
      match pyParseInt sansTail with
      | some i => .ok (.TAG_Byte "" i)
      | none => .ok (.TAG_String "" sansQuotes)
    else if tailChar.toLower = 's' then
      match pyParseInt sansTail with
      | some i => .ok (.TAG_Short "" i)
      | none => .ok (.TAG_String "" sansQuotes)
    else if tailChar.toLower = 'l' then
      match pyParseInt sansTail with
      | some i => .ok (.TAG_Long "" i)
      | none => .ok (.TAG_String "" sansQuotes)
    else if tailChar.toLower = 'f' then
      match pyParseFloat sansTail with
      | some v => .ok (.TAG_Float "" v)
      | none => .ok (.TAG_String "" sansQuotes)
    else if tailChar.toLower = 'd' then
      match pyParseFloat sansTail with
      | some v => .ok (.TAG_Double "" v)
      | none => .ok (.TAG_String "" sansQuotes)
    else if tailChar = '"' then
      .ok (.TAG_String "" (unescapeJsonValue sansQuotes))
    else if json.data.contains '.' then
      match pyParseFloat json with
      | some v => .ok (.TAG_Double "" v)
      | none => .ok (.TAG_String "" sansQuotes)
    else
      match pyParseInt json with
      | some i => .ok (.TAG_Int "" i)
      | none => .ok (.TAG_String "" sansQuotes)

/-- The parser's provisional native values: a (possibly quoted) text
span, or the `{}` / `[]` placeholder stored when a container opens. -/
inductive JNative where
  | str (s : String)
  | dict
  | list
deriving DecidableEq, Repr

/-- Python `unicode(x)` applied by the `name` setter to the pending
name. -/
def unicodeOfNameState : Option JNative → String
  | none => "None"
  | some (.str s) => s
  | some .dict => "\x7b\x7d"
  | some .list => "[]"

/-- `TAG_Compound.__setitem__`: rename the item to the key, reject a
nameless child (`check_value`), remove prior children with the same
name unless duplicate-keys mode is on, and append. -/
def compound_setitem (cs : List Tag) (key : String) (item : Tag) : Except PyErr (List Tag) :=
  let item := item.withName key
  if item.nameOf = "" then .error .valueError
  else
    let cs2 := if ALLOW_DUPLICATE_KEYS then cs else cs.filter (fun x => x.nameOf ≠ key)
    .ok (cs2 ++ [item])

/-- Cast of a scalar payload inserted into a typed array
(`numpy.insert` + the dtype cast of the value setter): integers wrap
to the element width; a float truncates toward zero first; a string or
container payload raises. -/
def arrayInsertCast (width : Nat) : PyVal → Except PyErr Nat
  | .intV i => .ok ((i % (2 ^ (8 * width) : Int)).toNat)
  | .floatV (.finite q) => .ok (((q.num / (q.den : Int)) % (2 ^ (8 * width) : Int)).toNat)
  | _ => .error .valueError

/-- Attach a finalized tag to the container on top of the parser
stack (`_jsonParser_storeValue`, dispatch part): Compound children go
through the keyed insert; List children are appended (which clears
their name); array parents receive the scalar's numeric value; any
other parent kind raises `JSONFormatError`. Returns the updated parent
and the child object as the parent holds it. -/
def storeIntoParent (parent t : Tag) : Except PyErr (Tag × Tag) :=
  match parent with
  | .TAG_Compound n cs =>
    match compound_setitem cs t.nameOf t with
    | .error e => .error e
    | .ok cs2 => .ok (.TAG_Compound n cs2, t)
  | .TAG_List _ _ _ =>
    match listAppend parent t with
    | .error e => .error e
    | .ok p2 => .ok (p2, t.withName "")
  | .TAG_Byte_Array n vs =>
    match t.scalarVal with
    | some v =>
      match arrayInsertCast 1 v with
      | .error e => .error e
      | .ok x => .ok (.TAG_Byte_Array n (vs ++ [x]), t)
    | none => .error .valueError
  | .TAG_Int_Array n vs =>
    match t.scalarVal with
    | some v =>
      match arrayInsertCast 4 v with
      | .error e => .error e
      | .ok x => .ok (.TAG_Int_Array n (vs ++ [x]), t)
    | none => .error .valueError
  | .TAG_Long_Array n vs =>
    match t.scalarVal with
    | some v =>
      match arrayInsertCast 8 v with
      | .error e => .error e
      | .ok x => .ok (.TAG_Long_Array n (vs ++ [x]), t)
    | none => .error .valueError
  | _ => .error .jsonFormatError

/-- Replace the last child of a container with the finished version of
the tag that was pushed when it opened (pure-model counterpart of the
in-place mutation the Python stack shares with the parent). -/
def replaceLastChild (parent c : Tag) : Tag :=
  match parent with
  | .TAG_Compound n cs => .TAG_Compound n (cs.dropLast ++ [c])
  | .TAG_List n t cs => .TAG_List n t (cs.dropLast ++ [c])
  | p => p

/-- The state `json_to_tag` threads through its character loop. -/
structure JParserState where
  name : Option JNative
  native : Option JNative
  tag : Option Tag
  stackTag : List Tag
  rootPopped : Option Tag
  startQuote : Option Nat
  backslashFound : Bool
  listTypeCharsLeft : Nat

/-- `type(state["tag"])` is one of the five container classes. -/
def tagIsContainer : Option Tag → Bool
  | some t =>
    t.tagID = TAG_COMPOUND ∨ t.tagID = TAG_LIST ∨ t.tagID = TAG_BYTE_ARRAY ∨
      t.tagID = TAG_INT_ARRAY ∨ t.tagID = TAG_LONG_ARRAY
  | none => false

/-- `_jsonParser_storeValue(state)`: nothing to do without a pending
native value; otherwise classify the token (unless an open container
tag is already pending), attach the pending name, store into the stack
top (an empty stack raises `IndexError`), push an opened container,
and reset the per-value state. -/
def _jsonParser_storeValue (st : JParserState) : Except PyErr JParserState :=
  match st.native with
  | none => .ok st
  | some nat =>
    let isContainer := tagIsContainer st.tag
    let tagE : Except PyErr Tag :=
      if isContainer then
        match st.tag with
        | some t => .ok t
        | none => .error .attributeError
      else
        match nat with
        | .str s => _jsonParser_jsonToTag s
        | _ => .error .attributeError
    match tagE with
    | .error e => .error e
    | .ok t0 =>
      let t := t0.withName (unicodeOfNameState st.name)
      match st.stackTag with
      | [] => .error .indexError
      | parent :: restStack =>
        match storeIntoParent parent t with
        | .error e => .error e
        | .ok (parent2, stored) =>
          let newStack :=
            if isContainer then stored :: parent2 :: restStack
            else parent2 :: restStack
          .ok { st with
            name := some (.str ""), native := none, tag := none, stackTag := newStack }

/-- `_jsonParser_exitNestLevel(state)`: finalize any pending value,
then pop the stack; popping the root remembers it, and popping an
inner container writes its finished version back into its parent. An
empty stack raises `IndexError`. -/
def _jsonParser_exitNestLevel (st : JParserState) : Except PyErr JParserState :=
  match _jsonParser_storeValue st with
  | .error e => .error e
  | .ok st2 =>
    match st2.stackTag with
    | [] => .error .indexError
    | [c] => .ok { st2 with stackTag := [], rootPopped := some c }
    | c :: parent :: rest =>
      .ok { st2 with stackTag := replaceLastChild parent c :: rest }

/-- One step of the character loop of `json_to_tag`, in the source's
priority order: typed-array prefix skipping, backslash handling,
quote handling, inside-quotes fall-through, `{`, `[` (with the
two-character `B;` / `I;` / `L;` lookahead), `]` and `}`, `:` (move
the native value into the name, appending with a `:` separator when a
name is already present), `,`, and the default append-to-native. -/
def jsonCharStep (json : String) (i : Nat) (c : Char) (st : JParserState) :
    Except PyErr JParserState :=
  if 0 < st.listTypeCharsLeft then
    .ok { st with listTypeCharsLeft := st.listTypeCharsLeft - 1 }
  else if st.backslashFound then
    .ok { st with backslashFound := false }
  else if c = '\\' then
    .ok { st with backslashFound := true }
  else if c = '"' then
    match st.startQuote with
    | some q =>
      let sv : JNative := .str ⟨(json.data.take (i + 1)).drop q⟩
      .ok { st with native := some sv, startQuote := none }
    | none => .ok { st with startQuote := some i }
  else if st.startQuote.isSome then
    .ok st
  else if c = '\x7b' then
    if i = 0 then .ok st
    else
      _jsonParser_storeValue
        { st with native := some .dict, tag := some (.TAG_Compound "" []) }
  else if c = '[' then
    let typeId : String := ⟨(json.data.take (i + 3)).drop (i + 1)⟩
    if typeId = "B;" then
      _jsonParser_storeValue
        { st with
          native := some .list
          tag := some (.TAG_Byte_Array "" [])
          listTypeCharsLeft := 2 }
    else if typeId = "I;" then
      _jsonParser_storeValue
        { st with
          native := some .list
          tag := some (.TAG_Int_Array "" [])
          listTypeCharsLeft := 2 }
    else if typeId = "L;" then
      _jsonParser_storeValue
        { st with
          native := some .list
          tag := some (.TAG_Long_Array "" [])
          listTypeCharsLeft := 2 }
    else
      _jsonParser_storeValue
        { st with native := some .list, tag := some (.TAG_List "" TAG_BYTE []) }
  else if c = ']' then
    _jsonParser_exitNestLevel st
  else if c = '\x7d' then
    _jsonParser_exitNestLevel st
  else if c = ':' then
    match st.name with
    | some (.str "") => .ok { st with name := st.native, native := none }
    | some (.str s) =>
      match st.native with
      | some (.str t) => .ok { st with name := some (.str (s ++ ":" ++ t)), native := none }
      | _ => .error .typeError
    | _ => .error .typeError
  else if c = ',' then
    _jsonParser_storeValue st
  else
    match st.native with
    | none => .ok { st with native := some (.str ⟨[c]⟩) }
    | some (.str s) => .ok { st with native := some (.str (s ++ ⟨[c]⟩)) }
    | some _ => .error .typeError

/-- The character loop of `json_to_tag` over the indexed characters. -/
def jsonFoldSteps (json : String) : List (Nat × Char) → JParserState → Except PyErr JParserState
  | [], st => .ok st
  | (i, c) :: rest, st =>
    match jsonCharStep json i c st with
    | .error e => .error e
    | .ok st2 => jsonFoldSteps json rest st2

/-- `json_to_tag(json)`: run the character machine from a fresh state
seeded with an empty root compound, finalize a trailing pending value,
and return the root (with any still-open containers visible through
their parents, as the shared mutable objects make them in Python). -/
def json_to_tag (json : String) : Except PyErr Tag :=
  let st0 : JParserState :=
    { name := some (.str ""), native := none, tag := none,
      stackTag := [.TAG_Compound "" []], rootPopped := none,
      startQuote := none, backslashFound := false, listTypeCharsLeft := 0 }
  match jsonFoldSteps json json.data.enum st0 with
  | .error e => .error e
  | .ok st =>
    match (if st.native.isSome then _jsonParser_storeValue st else .ok st) with
    | .error e => .error e
    | .ok st2 =>
      match st2.stackTag with
      | [] => .ok (st2.rootPopped.getD (.TAG_Compound "" []))
      | x :: rest => .ok (rest.foldl (fun child parent => replaceLastChild parent child) x)

/-- C2. The textual round trip breaks on strings containing a
newline: for `t = {s:"a\nb"}` the emitter produces `{s:"a\n\"b"}`
(the newline replacement appends a stray quote, which the quote pass
escapes), and re-reading that text yields `{s:"a\n\"\"b"}` (the
reader's unescape chain appends its own stray quote after the decoded
newline), so `json_to_tag(t.json())` is NOT `eq` to `t` although `t`
uses only grammar-preserved scalar types. -/
theorem c2_roundtrip_newline_bug :
    json_to_tag (jsonT (.TAG_Compound "" [.TAG_String "s" "a\nb"]) .noneS) =
      .ok (.TAG_Compound "" [.TAG_String "s" "a\n\"\"b"]) ∧
    eqT (.TAG_Compound "" [.TAG_String "s" "a\n\"\"b"])
      (.TAG_Compound "" [.TAG_String "s" "a\nb"]) = .ok false ∧
    jsonT (.TAG_Compound "" [.TAG_String "s" "a\nb"]) .noneS =
      "\x7bs:\"a\\n\\\"b\"\x7d" ∧
    json_to_tag (jsonT (.TAG_Compound "" [.TAG_Byte "x" 1]) .noneS) =
      .ok (.TAG_Compound "" [.TAG_Byte "x" 1]) ∧
    eqT (.TAG_Compound "" [.TAG_Byte "x" 1]) (.TAG_Compound "" [.TAG_Byte "x" 1]) =
      .ok true := by
  refine ⟨by rfl, by decide, by decide, by rfl, by decide⟩
